import Mathlib

/-!
# Verification of the NACOS voting backend

Shallow embedding of the voter-integrity core of the `nacos-voting-backend`
repository.  The repository contains six near-duplicate variants of one
design; the claims reference four of them:

* the SQLite variant (`src/server.js`, first half, `better-sqlite3`),
* the Firestore variant with no IP checking (`src/unnamed/part_000`),
* the Firestore variant with strict IP+fingerprint checking (`src/unnamed/part_001`),
* the Firestore variant with completion-time IP checking (`src/unnamed/part_003`),
* the Firestore variant with strict per-sign-in IP checking
  (`src/server.js`, second half, provides `checkIPSignedIn`).

Conventions of the embedding:

* Firestore documents become structures; a collection becomes a `List`.
* Firestore `Timestamp`s become `Nat` (milliseconds); comparisons keep
  the direction of the source (`where('sessionExpiry','>',now)` becomes
  `now < sessionExpiry`).
* `FieldValue.arrayUnion x` appends `x` when absent, else leaves the list.
* JavaScript falsiness of a string is emptiness; a nullable field is an
  `Option`.
* A Firestore `runTransaction` body that throws leaves the store
  untouched; each handler is one atomic state transition
  `input → result × state` (Firestore transactions are serializable, and
  the better-sqlite3 handler sections are synchronous with no `await`
  between check and write, so any concurrent execution is equivalent to
  some serialization of these transitions).
* A store read that may throw is an `Except Unit` value; the `catch`
  branches of the duplicate-detection helpers are the `.error` cases.
-/

namespace Voting

/-! ## Data model -/

/-- A row of the `Candidates` table / a document of the `Candidates`
collection (seeded by `init-candidates.js`, immutable). -/
structure Candidate where
  id : String
  name : String
  pos : String
deriving DecidableEq, Repr

/-- A Firestore `Users` document.  The union of the fields the four
Firestore variants read or write; a variant that does not use a field
leaves it alone. -/
structure FUser where
  id : String
  institutionalEmail : String
  personalEmail : String
  matricNumber : String
  fullName : String
  votedPositions : List String
  candidateIds : List (String × String)
  totalVotes : Nat
  sessionToken : String
  sessionExpiry : Nat
  ipAddress : Option String
  fingerprintHash : Option String
  fingerprintCombined : Option String
  status : String
deriving DecidableEq, Repr

/-- A Firestore `Votes` document (a Ballot).  `part_001` writes no
`isValid` field; since `undefined !== false` in the tally's
`isValid !== false` test, an absent field reads as valid, so the
embedding stores `true` there. -/
structure FVote where
  candidateId : String
  userId : String
  userInstitutionalEmail : String
  pos : String
  isValid : Bool
deriving DecidableEq, Repr

/-- A `CompletedVotingIPs` document (`part_003`). -/
structure CompletedIP where
  ipAddress : String
  institutionalEmail : String
deriving DecidableEq, Repr

/-- The Firestore store state. -/
structure FState where
  users : List FUser
  candidates : List Candidate
  votes : List FVote
  completedIPs : List CompletedIP
deriving DecidableEq, Repr

/-- A row of the SQLite `Users` table.  For users created by the SQLite
sign-in, `personalEmail` holds `bcrypt.hash(personalEmail, 10)`. -/
structure SUser where
  id : String
  institutionalEmail : String
  personalEmail : String
  matricNumber : String
  fullName : String
  deviceId : String
  status : String
  votedPositions : List String
  candidateIds : List (String × String)
  totalVotes : Nat
deriving DecidableEq, Repr

/-- A row of the SQLite `Votes` table. -/
structure SVote where
  userId : String
  userInstitutionalEmail : String
  candidateId : String
  candidateName : String
  pos : String
  timestamp : Nat
  isValid : Bool
deriving DecidableEq, Repr

/-- The SQLite store state. -/
structure SState where
  users : List SUser
  candidates : List Candidate
  votes : List SVote
deriving DecidableEq, Repr

/-- `VOTING_POSITIONS` of the SQLite variant. -/
def VOTING_POSITIONS : List String :=
  ["President", "Vice President", "Senate President", "Treasurer"]

/-! ## JavaScript string primitives

The handlers use `toLowerCase`, `trim`, single-character `split`,
`endsWith` and character search on ASCII form fields.  They are
embedded over the character list so that every definition evaluates by
kernel reduction. -/

/-- JavaScript `\s`, restricted to its ASCII members (the server
receives ASCII form fields). -/
def isJsSpace (c : Char) : Bool :=
  c == ' ' || c == '\t' || c == '\n' || c == '\r' || c == '\x0b' || c == '\x0c'

/-- `toLowerCase` on ASCII data. -/
def jsToLower (s : String) : String := ⟨s.data.map Char.toLower⟩

/-- Split a character list at a separator; never returns `[]`, matching
JavaScript `split`, which returns `['']` on the empty string. -/
def jsSplitAux (sep : Char) : List Char → List (List Char)
  | [] => [[]]
  | c :: t =>
      let r := jsSplitAux sep t
      if c == sep then [] :: r
      else
        match r with
        | [] => [[c]]
        | h :: t' => (c :: h) :: t'

/-- JavaScript `split` on a single-character separator (the handlers
only split on `'@'`, `'/'`, `','` and `' '`). -/
def jsSplit (s : String) (sep : Char) : List String :=
  (jsSplitAux sep s.data).map String.mk

/-- JavaScript `trim` (ASCII whitespace). -/
def jsTrim (s : String) : String :=
  ⟨((s.data.dropWhile isJsSpace).reverse.dropWhile isJsSpace).reverse⟩

/-- JavaScript `endsWith`. -/
def jsEndsWith (s suffix : String) : Bool := suffix.data.isSuffixOf s.data

/-- Character membership (`includes` on a one-character needle). -/
def strContains (s : String) (c : Char) : Bool := s.data.contains c

/-- Lexicographic comparison of character lists; on UTF-8 data this is
SQLite's BINARY collation, byte order and codepoint order
coinciding. -/
def ltChars : List Char → List Char → Bool
  | [], [] => false
  | [], _ :: _ => true
  | _ :: _, [] => false
  | a :: s, b :: t =>
      if a < b then true
      else if b < a then false
      else ltChars s t

/-- BINARY-collation string comparison. -/
def strLtB (s t : String) : Bool := ltChars s.data t.data

/-- `all` over the characters. -/
def strAll (s : String) (p : Char → Bool) : Bool := s.data.all p

/-! ## Credential validation (shared block of the Firestore variants) -/

/-- Allowed enrollment years, from the regexes `(22|23|24)`. -/
def validYears : List String := ["22", "23", "24"]

/-- Allowed department codes, from the regexes `(cyb|sen|ins|cmp)`. -/
def validDepts : List String := ["cyb", "sen", "ins", "cmp"]

/-- `/^(22|23|24)03(cyb|sen|ins|cmp)\d{3}@alhikmah\.edu\.ng$/i` tested on
the lower-cased email, expressed by fixed offsets (the pattern has fixed
width 26). -/
def validInstEmail (e0 : String) : Bool :=
  let e := jsToLower e0
  e.length == 26 &&
  validYears.contains (e.take 2) &&
  (e.drop 2).take 2 == "03" &&
  validDepts.contains ((e.drop 4).take 3) &&
  strAll ((e.drop 7).take 3) Char.isDigit &&
  e.drop 10 == "@alhikmah.edu.ng"

/-- `/^[^\s@]+@[^\s@]+\.[^\s@]+$/` tested on the lower-cased email:
no whitespace, exactly one `@` splitting into a nonempty local part and
a domain that has a dot neither at the start nor at the end. -/
def validPersonalEmail (e0 : String) : Bool :=
  let e := jsToLower e0
  strAll e (fun c => !isJsSpace c) &&
  e.data.count '@' == 1 &&
  (match jsSplit e '@' with
   | [loc, dom] =>
       loc.length > 0 && dom.length > 0 && strContains ((dom.drop 1).dropRight 1) '.'
   | _ => false)

/-- `nameParts = fullName.trim().split(' ').filter(p => p.length > 1)`
must have at least two entries. -/
def validFullName (n : String) : Bool :=
  ((jsSplit (jsTrim n) ' ').filter (fun p => p.length > 1)).length >= 2

/-- `/^(22|23|24)\/03(cyb|sen|ins|cmp)\d{3}$/i` by fixed offsets
(fixed width 11). -/
def validMatric (m0 : String) : Bool :=
  let m := jsToLower m0
  m.length == 11 &&
  validYears.contains (m.take 2) &&
  (m.drop 2).take 3 == "/03" &&
  validDepts.contains ((m.drop 5).take 3) &&
  strAll ((m.drop 8).take 3) Char.isDigit

/-- Outcome of a sign-in request, across the Firestore variants. -/
inductive FSignInRes where
  | fieldsRequired
  | invalidInstEmail
  | invalidPersonalEmail
  | invalidFullName
  | invalidMatric
  | yearMismatch
  | deptMismatch
  | emailBlocked
  | deviceBlocked (matchType : Option String)
  | accountDeviceBlocked
  | alreadyVoted
  | successContinue (remaining : List String)
  | successNew (remaining : List String)
deriving DecidableEq, Repr

/-- The validation prefix shared verbatim by the Firestore sign-in
handlers: required fields, the four format checks, then the year and
department cross-checks between institutional email and matric number. -/
def validateCredentials (inst pers matric name : String) : Option FSignInRes :=
  if inst == "" || matric == "" || name == "" || pers == "" then
    some .fieldsRequired
  else if !validInstEmail inst then some .invalidInstEmail
  else if !validPersonalEmail pers then some .invalidPersonalEmail
  else if !validFullName name then some .invalidFullName
  else if !validMatric matric then some .invalidMatric
  else
    let emailParts := (jsSplit (jsToLower inst) '@').headD ""
    let year := emailParts.take 2
    let dept := (emailParts.drop 4).take 3
    let mparts := jsSplit (jsToLower matric) '/'
    let matricYear := mparts.headD ""
    let matricDept := ((mparts.getD 1 "").drop 2).take 3
    if year != matricYear then some .yearMismatch
    else if dept != matricDept then some .deptMismatch
    else none

/-! ## Duplicate-detection helpers

Each helper wraps its store read in `try`/`catch` and returns the
"no duplicate" default from the `catch` branch; the read is therefore an
`Except Unit` argument and `.error` is the throwing read. -/

/-- `checkDuplicatePersonalEmail` (`part_000` lines 45–63, identical in
`part_001`/`part_003`): scan all users; a user whose (truthy)
`personalEmail` equals the argument case-insensitively marks a
duplicate.  The `forEach` keeps overwriting, so the reported email is
the last match; on a throwing read, no duplicate. -/
def checkDuplicatePersonalEmail (read : Except Unit (List FUser))
    (personalEmail : String) : Bool × String :=
  match read with
  | .error _ => (false, "")
  | .ok users =>
      users.foldl (fun acc u =>
        if u.personalEmail != "" && jsToLower u.personalEmail == jsToLower personalEmail then
          (true, u.institutionalEmail)
        else acc) (false, "")

/-- Result of `checkDeviceUsed` (`part_001`). -/
structure DevCheck where
  deviceFound : Bool
  foundUserEmail : String
  matchType : Option String
deriving DecidableEq, Repr

/-- `checkDeviceUsed` (`part_001` lines 84–129): for each user, in
order, test (1) exact combined fingerprint, (2) same IP, (3) same
fingerprint hash from a different network; the JavaScript `return`
inside `forEach` only skips to the next user, so a later matching user
overwrites the reported email and match type.  On a throwing read, no
match. -/
def checkDeviceUsed (read : Except Unit (List FUser)) (ipAddress : String)
    (fpHash fpCombined : String) : DevCheck :=
  match read with
  | .error _ => ⟨false, "", none⟩
  | .ok users =>
      users.foldl (fun acc u =>
        if u.fingerprintCombined == some fpCombined then
          ⟨true, u.institutionalEmail, some "EXACT_DEVICE"⟩
        else if u.ipAddress == some ipAddress then
          ⟨true, u.institutionalEmail, some "SAME_NETWORK"⟩
        else if u.fingerprintHash == some fpHash then
          ⟨true, u.institutionalEmail, some "SAME_DEVICE_DIFFERENT_NETWORK"⟩
        else acc) ⟨false, "", none⟩

/-- `checkIPCompletedVoting` (`part_003` lines 44–58): the
`CompletedVotingIPs` collection filtered on the IP is nonempty; on a
throwing read, not completed. -/
def checkIPCompletedVoting (read : Except Unit (List CompletedIP))
    (ipAddress : String) : Bool :=
  match read with
  | .error _ => false
  | .ok l => !(l.filter (fun r => r.ipAddress == ipAddress)).isEmpty

/-- `checkIPSignedIn` (`src/server.js` second half, lines 465–498): a
user's (truthy) stored IP matches either as a whole or as one of its
comma-separated, trimmed components; on a throwing read, not signed
in. -/
def checkIPSignedIn (read : Except Unit (List FUser)) (ipAddress : String) : Bool :=
  match read with
  | .error _ => false
  | .ok users =>
      users.foldl (fun ipFound u =>
        match u.ipAddress with
        | none => ipFound
        | some stored =>
            if stored == "" then ipFound
            else if strContains stored ',' then
              if ((jsSplit stored ',').map jsTrim).contains ipAddress then true
              else ipFound
            else if stored == ipAddress then true
            else ipFound) false

/-! ## Session verification (`verifySession`, identical in
`part_000`/`part_001`/`part_003` and the second half of `server.js`) -/

/-- `verifySession` (`part_000` lines 66–90): reject missing fields,
then one query selecting the user whose institutional email (the input
lower-cased), session token and unexpired expiry all match; `none` is
the 401 rejection. -/
def verifySession (s : FState) (institutionalEmail sessionToken : String)
    (now : Nat) : Option FUser :=
  if institutionalEmail == "" || sessionToken == "" then none
  else
    s.users.find? (fun u =>
      u.institutionalEmail == jsToLower institutionalEmail &&
      u.sessionToken == sessionToken &&
      decide (now < u.sessionExpiry))

/-! ## Ballot casting -/

/-- Outcome of a Firestore vote transaction. -/
inductive VoteRes where
  | success
  | userNotFound
  | alreadyVoted
  | candidateNotFound
  | positionMismatch
deriving DecidableEq, Repr

/-- `FieldValue.arrayUnion` on a list of strings. -/
def arrayUnion (l : List String) (x : String) : List String :=
  if l.contains x then l else l ++ [x]

/-- `FieldValue.arrayUnion` on the `candidateIds` list of
`{position, candidateId}` objects. -/
def arrayUnionPair (l : List (String × String)) (x : String × String) :
    List (String × String) :=
  if l.contains x then l else l ++ [x]

/-- The `/api/vote` transaction of `part_000` (lines 265–297): load the
user document by id, fail if the position was already voted, load the
candidate by id, fail if absent or if its position mismatches, then in
the same commit union the position into `votedPositions`, union
`{position, candidateId}` into `candidateIds` and increment
`totalVotes`.  No `Votes` document is written.  A thrown error aborts
the transaction, leaving the state unchanged. -/
def castV0 (s : FState) (userId candidateId pos : String) : VoteRes × FState :=
  match s.users.find? (fun u => u.id == userId) with
  | none => (.userNotFound, s)
  | some u =>
      if u.votedPositions.contains pos then (.alreadyVoted, s)
      else
        match s.candidates.find? (fun c => c.id == candidateId) with
        | none => (.candidateNotFound, s)
        | some cd =>
            if cd.pos == pos then
              (.success, { s with
                users := s.users.map (fun x =>
                  if x.id == userId then
                    { x with
                      votedPositions := arrayUnion x.votedPositions pos,
                      candidateIds := arrayUnionPair x.candidateIds (pos, candidateId),
                      totalVotes := x.totalVotes + 1 }
                  else x) })
            else (.positionMismatch, s)

/-- The `/api/vote` transaction of `part_001` (lines 379–421): same
checks as `part_000`, then in one commit create a `Votes` document and
update the user's `votedPositions` and `totalVotes`.  The user's
`candidateIds` list is not touched (the variant stores none). -/
def castV1 (s : FState) (userId candidateId pos : String)
    (institutionalEmail : String) : VoteRes × FState :=
  match s.users.find? (fun u => u.id == userId) with
  | none => (.userNotFound, s)
  | some u =>
      if u.votedPositions.contains pos then (.alreadyVoted, s)
      else
        match s.candidates.find? (fun c => c.id == candidateId) with
        | none => (.candidateNotFound, s)
        | some cd =>
            if cd.pos == pos then
              (.success, { s with
                votes := s.votes ++
                  [⟨candidateId, userId, jsToLower institutionalEmail, pos, true⟩],
                users := s.users.map (fun x =>
                  if x.id == userId then
                    { x with
                      votedPositions := arrayUnion x.votedPositions pos,
                      totalVotes := x.totalVotes + 1 }
                  else x) })
            else (.positionMismatch, s)

/-- Outcome of the SQLite `/api/vote` route. -/
inductive SVoteRes where
  | missingFields
  | invalidUser
  | invalidCandidate
  | voteFailed
  | alreadyVoted
  | success
deriving DecidableEq, Repr

/-- The SQLite `/api/vote` route (`server.js` lines 178–228, behind the
`verifyUser` middleware of lines 57–77): `verifyUser` requires a row
matching institutional email and device id; the handler then requires a
candidate row matching id and position, re-reads the user row by email,
rejects an already-voted position, and otherwise in one
`db.transaction` rewrites the user row's JSON lists and vote counter
and inserts a `Votes` row.  `verifyUser` checks no `status`. -/
def castSqlite (s : SState) (institutionalEmail deviceId candidateId pos : String)
    (now : Nat) : SVoteRes × SState :=
  if institutionalEmail == "" || deviceId == "" then (.missingFields, s)
  else
    match s.users.find? (fun u =>
        u.institutionalEmail == institutionalEmail && u.deviceId == deviceId) with
    | none => (.invalidUser, s)
    | some _ =>
        if candidateId == "" || pos == "" then (.missingFields, s)
        else
          match s.candidates.find? (fun c => c.id == candidateId && c.pos == pos) with
          | none => (.invalidCandidate, s)
          | some cand =>
              match s.users.find? (fun u => u.institutionalEmail == institutionalEmail) with
              | none => (.voteFailed, s)
              | some u =>
                  if u.votedPositions.contains pos then (.alreadyVoted, s)
                  else
                    (.success, { s with
                      users := s.users.map (fun x =>
                        if x.institutionalEmail == institutionalEmail then
                          { x with
                            votedPositions := u.votedPositions ++ [pos],
                            candidateIds := u.candidateIds ++ [(pos, candidateId)],
                            totalVotes := x.totalVotes + 1 }
                        else x),
                      votes := s.votes ++
                        [⟨u.id, institutionalEmail, candidateId, cand.name, pos, now, true⟩] })

/-! ## Sign-in -/

/-- `[...new Set(candidates.map(c => c.position))]`: the distinct
positions in first-appearance order. -/
def positionsOf (cs : List Candidate) : List String :=
  cs.foldl (fun acc c => if acc.contains c.pos then acc else acc ++ [c.pos]) []

/-- The `/api/sign-in` handler of `part_000` (lines 93–252): after the
shared validation block, run `checkDuplicatePersonalEmail` (whose store
read is the `dupRead` argument) and block on a duplicate; then for an
existing user either reject a finished voter (`votedPositions` covering
all positions *and* a truthy `ipAddress`) or refresh the session and
continue; otherwise create a new user.  `token`/`expiry` stand for the
generated session token and its two-hour expiry; `newId` for the fresh
document id. -/
def signInV0 (dupRead : Except Unit (List FUser)) (s : FState)
    (inst pers matric name : String) (token newId : String)
    (expiry : Nat) : FSignInRes × FState :=
  match validateCredentials inst pers matric name with
  | some e => (e, s)
  | none =>
      let instN := jsToLower inst
      let persN := jsToLower pers
      let nameN := jsTrim name
      if (checkDuplicatePersonalEmail dupRead persN).1 then (.emailBlocked, s)
      else
        let allPositions := positionsOf s.candidates
        match s.users.find? (fun u => u.institutionalEmail == instN) with
        | some u =>
            if u.votedPositions.length >= allPositions.length && u.ipAddress.isSome then
              (.alreadyVoted, s)
            else
              (.successContinue (allPositions.filter (fun p => !u.votedPositions.contains p)),
               { s with users := s.users.map (fun x =>
                   if x.institutionalEmail == instN then
                     { x with sessionToken := token, sessionExpiry := expiry,
                              personalEmail := persN, fullName := nameN }
                   else x) })
        | none =>
            (.successNew allPositions,
             { s with users := s.users ++
                 [{ id := newId, institutionalEmail := instN, personalEmail := persN,
                    matricNumber := jsToLower matric, fullName := nameN,
                    votedPositions := [], candidateIds := [], totalVotes := 0,
                    sessionToken := token, sessionExpiry := expiry,
                    ipAddress := none, fingerprintHash := none,
                    fingerprintCombined := none, status := "active" }] })

/-- The `/api/sign-in` handler of `part_001` (lines 191–366): after the
shared validation block, run the strict `checkDeviceUsed` over all users
— including the caller's own prior record — and block on any match;
then block duplicate personal emails; an existing user that survived
both checks is still rejected (`accountDeviceBlocked`); otherwise create
a new user carrying the IP and fingerprint. -/
def signInV1 (devRead dupRead : Except Unit (List FUser)) (s : FState)
    (inst pers matric name : String) (ipAddress fpHash fpCombined token newId : String)
    (expiry : Nat) : FSignInRes × FState :=
  match validateCredentials inst pers matric name with
  | some e => (e, s)
  | none =>
      let instN := jsToLower inst
      let persN := jsToLower pers
      let nameN := jsTrim name
      let dc := checkDeviceUsed devRead ipAddress fpHash fpCombined
      if dc.deviceFound then (.deviceBlocked dc.matchType, s)
      else if (checkDuplicatePersonalEmail dupRead persN).1 then (.emailBlocked, s)
      else
        match s.users.find? (fun u => u.institutionalEmail == instN) with
        | some _ => (.accountDeviceBlocked, s)
        | none =>
            (.successNew (positionsOf s.candidates),
             { s with users := s.users ++
                 [{ id := newId, institutionalEmail := instN, personalEmail := persN,
                    matricNumber := jsToLower matric, fullName := nameN,
                    votedPositions := [], candidateIds := [], totalVotes := 0,
                    sessionToken := token, sessionExpiry := expiry,
                    ipAddress := some ipAddress, fingerprintHash := some fpHash,
                    fingerprintCombined := some fpCombined, status := "active" }] })

/-- Outcome of the SQLite `/api/sign-in` route. -/
inductive SSignInRes where
  | missingFields
  | invalidInstEmail
  | deviceBlocked
  | alreadyVoted
  | emailBlocked
  | successContinue (remaining : List String)
  | successNew
deriving DecidableEq, Repr

/-- The SQLite `/api/sign-in` route (`server.js` lines 89–156): require
all fields and the institutional-email suffix; block a device id
registered to a *different* institutional email; for an existing user,
reject completed voters, a mismatched device, then compare the stored
`personalEmail` column — which holds `bcrypt.hash(personalEmail)` from
creation, here `h pers` — against the submitted plaintext for string
equality; matching users continue.  A new user is stored with the
hashed personal email.  No check reads any other voter's personal
email. -/
def signInSqlite (h : String → String) (s : SState)
    (inst pers matric name deviceId newId : String) : SSignInRes × SState :=
  if inst == "" || pers == "" || matric == "" || name == "" || deviceId == "" then
    (.missingFields, s)
  else if !jsEndsWith inst "@alhikmah.edu.ng" then (.invalidInstEmail, s)
  else
    let devHit := match s.users.find? (fun u => u.deviceId == deviceId) with
      | some ed => ed.institutionalEmail != inst
      | none => false
    if devHit then (.deviceBlocked, s)
    else
      match s.users.find? (fun u => u.institutionalEmail == inst) with
      | some u =>
          if u.status == "completed" then (.alreadyVoted, s)
          else if u.deviceId != deviceId then (.deviceBlocked, s)
          else if u.personalEmail != pers then (.emailBlocked, s)
          else
            (.successContinue
              (if u.votedPositions.isEmpty then VOTING_POSITIONS
               else VOTING_POSITIONS.filter (fun p => !u.votedPositions.contains p)), s)
      | none =>
          (.successNew,
           { s with users := s.users ++
               [{ id := newId, institutionalEmail := inst, personalEmail := h pers,
                  matricNumber := matric, fullName := name, deviceId := deviceId,
                  status := "active", votedPositions := [], candidateIds := [],
                  totalVotes := 0 }] })

/-- The SQLite `/api/complete-voting` route (`server.js` lines
231–241, behind `verifyUser`): no precondition on `votedPositions`;
it sets `status = 'completed'` on the user's row. -/
def completeVotingSqlite (s : SState) (institutionalEmail deviceId : String) :
    Bool × SState :=
  if institutionalEmail == "" || deviceId == "" then (false, s)
  else
    match s.users.find? (fun u =>
        u.institutionalEmail == institutionalEmail && u.deviceId == deviceId) with
    | none => (false, s)
    | some _ =>
        (true, { s with users := s.users.map (fun x =>
            if x.institutionalEmail == institutionalEmail then
              { x with status := "completed" }
            else x) })

/-! ## Tally (`/api/public/votes` of `part_003`, lines 451–498) -/

/-- `voteCounts[position].find(c => c.name === name).votes += 1`:
increment the first entry carrying the name. -/
def bumpFirst (l : List (String × Nat)) (nm : String) : List (String × Nat) :=
  match l with
  | [] => []
  | e :: t => if e.1 == nm then (e.1, e.2 + 1) :: t else e :: bumpFirst t nm

/-- The initialization loop: for each candidate in roster order, create
the position's entry on first appearance and push `(name, 0)`. -/
def initCounts (cs : List Candidate) : List (String × List (String × Nat)) :=
  cs.foldl (fun acc c =>
    if (acc.find? (fun e => e.1 == c.pos)).isSome then
      acc.map (fun e => if e.1 == c.pos then (e.1, e.2 ++ [(c.name, 0)]) else e)
    else acc ++ [(c.pos, [(c.name, 0)])]) []

/-- The counting loop body: a vote with `isValid !== false` whose
candidate id resolves in the roster and whose position matches the
candidate's increments that candidate's entry. -/
def applyVote (cs : List Candidate) (acc : List (String × List (String × Nat)))
    (v : FVote) : List (String × List (String × Nat)) :=
  if v.isValid then
    match cs.find? (fun c => c.id == v.candidateId) with
    | some cd =>
        if cd.pos == v.pos then
          acc.map (fun e => if e.1 == v.pos then (e.1, bumpFirst e.2 cd.name) else e)
        else acc
    | none => acc
  else acc

/-- One step of the stable descending insertion by vote count: the new
entry passes every entry with at least as many votes, so equal counts
keep their earlier-first order — the observable behavior of the stable
JavaScript `sort((a, b) => b.votes - a.votes)`. -/
def insertDesc (e : String × Nat) : List (String × Nat) → List (String × Nat)
  | [] => [e]
  | f :: t => if f.2 < e.2 then e :: f :: t else f :: insertDesc e t

/-- Stable descending sort by vote count. -/
def sortDesc (l : List (String × Nat)) : List (String × Nat) :=
  l.foldl (fun acc e => insertDesc e acc) []

/-- The `/api/public/votes` computation of `part_003`: initialize the
per-position rosters, fold the valid votes in, then sort each
position's list descending by count (stably). -/
def publicVotesV3 (s : FState) : List (String × List (String × Nat)) :=
  ((s.votes.foldl (applyVote s.candidates) (initCounts s.candidates)).map
    (fun e => (e.1, sortDesc e.2)))

/-- Specification-side roster of a position: the candidates contesting
it, in roster order. -/
def rosterFor (cs : List Candidate) (pos : String) : List Candidate :=
  cs.filter (fun c => c.pos == pos)

/-- Specification-side count: the number of Ballots with validity
`true` for the candidate's (position, id) pair. -/
def countMatch (votes : List FVote) (c : Candidate) : Nat :=
  (votes.filter (fun v =>
    v.isValid && v.candidateId == c.id && v.pos == c.pos)).length

/-! ## Tally (`/api/public/votes` of the SQLite variant, `server.js`
lines 244–265)

For each of `VOTING_POSITIONS` the route runs
`SELECT c.name, COUNT(v.id) … LEFT JOIN Votes v ON c.id = v.candidateId
AND v.position = c.position AND v.isValid = 1 WHERE c.position = ?
GROUP BY c.name` — with no `ORDER BY`.  SQLite emits one row per group
in ascending group-key (BINARY-collation name) order, the order of the
temp b-tree its `GROUP BY` builds; plain SQL semantics would leave the
order unspecified.  Under neither reading is the output ordered
descending by count. -/

/-- Insert a group key into the ascending key list, merging
duplicates. -/
def insertGroup (n : String) : List String → List String
  | [] => [n]
  | y :: t =>
      if n == y then y :: t
      else if strLtB n y then n :: y :: t
      else y :: insertGroup n t

/-- The distinct group keys of a key list, ascending. -/
def groupKeys (l : List String) : List String :=
  l.foldl (fun acc n => insertGroup n acc) []

/-- `COUNT(v.id)` of one group: over the position's candidates carrying
the group's name, the number of `Votes` rows matching the `LEFT JOIN`'s
`ON` clause (id, position, `isValid = 1`); an unmatched candidate row
contributes the `NULL` that `COUNT(v.id)` skips. -/
def groupCount (s : SState) (pos n : String) : Nat :=
  ((rosterFor s.candidates pos).filter (fun c => c.name == n)).foldl
    (fun acc c => acc + (s.votes.filter (fun v =>
      c.id == v.candidateId && v.pos == c.pos && v.isValid)).length) 0

/-- The `/api/public/votes` computation of the SQLite variant: for each
of `VOTING_POSITIONS`, the `GROUP BY c.name` rows `(name, votes)`, in
group-key order. -/
def publicVotesSqlite (s : SState) : List (String × List (String × Nat)) :=
  VOTING_POSITIONS.map (fun pos =>
    (pos, (groupKeys ((rosterFor s.candidates pos).map (fun c => c.name))).map
      (fun n => (n, groupCount s pos n))))

/-- Specification-side count for the SQLite store: the number of
`Votes` rows with validity `true` for the candidate's (position, id)
pair. -/
def countMatchS (votes : List SVote) (c : Candidate) : Nat :=
  (votes.filter (fun v =>
    v.isValid && v.candidateId == c.id && v.pos == c.pos)).length

/-! ## Generic list lemmas -/

theorem contains_eq_true_iff {l : List String} {x : String} :
    l.contains x = true ↔ x ∈ l := by simp

/-- Updating the elements selected by `p` through a `p`-preserving
function moves the first `p`-match through the update. -/
theorem find?_map_update {α : Type} (p : α → Bool) (f : α → α) (l : List α) (u : α)
    (hu : l.find? p = some u) (hf : ∀ x, p x = true → p (f x) = true) :
    (l.map (fun x => if p x then f x else x)).find? p = some (f u) := by
  induction l with
  | nil => simp at hu
  | cons a t ih =>
      by_cases hp : p a = true
      · rw [List.find?_cons_of_pos _ hp] at hu
        cases hu
        simp only [List.map_cons, if_pos hp]
        exact List.find?_cons_of_pos _ (hf _ hp)
      · rw [List.find?_cons_of_neg _ hp] at hu
        simp only [List.map_cons, if_neg hp]
        rw [List.find?_cons_of_neg _ hp]
        exact ih hu

/-! ## Lemmas about casting -/

/-- `part_000`'s vote transaction rejects an already-voted position
before any write: the transaction throws and the state is untouched. -/
theorem castV0_already (s : FState) (userId candidateId pos : String) (u : FUser)
    (hu : s.users.find? (fun x => x.id == userId) = some u)
    (hp : pos ∈ u.votedPositions) :
    castV0 s userId candidateId pos = (.alreadyVoted, s) := by
  unfold castV0
  simp [hu, hp]

/-- A successful `part_000` vote transaction as a state equation. -/
theorem castV0_success_eq (s : FState) (userId candidateId pos : String)
    (u : FUser) (cd : Candidate)
    (hu : s.users.find? (fun x => x.id == userId) = some u)
    (hp : pos ∉ u.votedPositions)
    (hc : s.candidates.find? (fun c => c.id == candidateId) = some cd)
    (hpos : cd.pos = pos) :
    castV0 s userId candidateId pos =
      (.success, { s with users := s.users.map (fun x =>
        if x.id == userId then
          { x with
            votedPositions := arrayUnion x.votedPositions pos,
            candidateIds := arrayUnionPair x.candidateIds (pos, candidateId),
            totalVotes := x.totalVotes + 1 }
        else x) }) := by
  unfold castV0
  simp [hu, hp, hc, hpos]

/-- A successful `part_000` vote transaction, observed on the voter's
document: the three written fields change, nothing else does. -/
theorem castV0_success (s : FState) (userId candidateId pos : String)
    (u : FUser) (cd : Candidate)
    (hu : s.users.find? (fun x => x.id == userId) = some u)
    (hp : pos ∉ u.votedPositions)
    (hc : s.candidates.find? (fun c => c.id == candidateId) = some cd)
    (hpos : cd.pos = pos) :
    (castV0 s userId candidateId pos).1 = .success ∧
    (castV0 s userId candidateId pos).2.users.find? (fun x => x.id == userId) =
      some { u with
        votedPositions := arrayUnion u.votedPositions pos,
        candidateIds := arrayUnionPair u.candidateIds (pos, candidateId),
        totalVotes := u.totalVotes + 1 } ∧
    (castV0 s userId candidateId pos).2.candidates = s.candidates ∧
    (castV0 s userId candidateId pos).2.votes = s.votes := by
  rw [castV0_success_eq s userId candidateId pos u cd hu hp hc hpos]
  refine ⟨rfl, ?_, rfl, rfl⟩
  exact find?_map_update _ _ _ _ hu (fun x hx => hx)

/-- The SQLite vote route rejects an already-voted position before the
write transaction starts: no row changes. -/
theorem castSqlite_already (s : SState) (e d candidateId pos : String) (now : Nat)
    (u0 u : SUser) (cand : Candidate)
    (he : e ≠ "") (hd : d ≠ "")
    (hverify : s.users.find? (fun x => x.institutionalEmail == e && x.deviceId == d) =
      some u0)
    (hcid : candidateId ≠ "") (hpos0 : pos ≠ "")
    (hcand : s.candidates.find? (fun c => c.id == candidateId && c.pos == pos) =
      some cand)
    (hu : s.users.find? (fun x => x.institutionalEmail == e) = some u)
    (hp : pos ∈ u.votedPositions) :
    castSqlite s e d candidateId pos now = (.alreadyVoted, s) := by
  unfold castSqlite
  simp [he, hd, hverify, hcid, hpos0, hcand, hu, hp]

/-- Inversion: a successful `part_000` vote transaction presupposes a
found user, an unvoted position and a matching candidate. -/
theorem castV0_success_inv (s : FState) (userId candidateId pos : String)
    (h : (castV0 s userId candidateId pos).1 = .success) :
    ∃ u cd, s.users.find? (fun x => x.id == userId) = some u ∧
      pos ∉ u.votedPositions ∧
      s.candidates.find? (fun c => c.id == candidateId) = some cd ∧
      cd.pos = pos := by
  unfold castV0 at h
  cases hu : s.users.find? (fun x => x.id == userId) with
  | none => rw [hu] at h; simp at h
  | some u =>
      rw [hu] at h
      by_cases hp : pos ∈ u.votedPositions
      · simp [hp] at h
      · cases hc : s.candidates.find? (fun c => c.id == candidateId) with
        | none => simp [hp, hc] at h
        | some cd =>
            by_cases hpos : cd.pos = pos
            · exact ⟨u, cd, rfl, hp, rfl, hpos⟩
            · simp [hp, hc, hpos] at h

/-- Replaying a vote call right after it succeeded hits the
already-voted rejection and leaves the state alone. -/
theorem castV0_repeat (s : FState) (userId candidateId pos : String)
    (h : (castV0 s userId candidateId pos).1 = .success) :
    castV0 (castV0 s userId candidateId pos).2 userId candidateId pos =
      (.alreadyVoted, (castV0 s userId candidateId pos).2) := by
  obtain ⟨u, cd, hu, hp, hc, hpos⟩ := castV0_success_inv s userId candidateId pos h
  obtain ⟨-, hfind, -, -⟩ := castV0_success s userId candidateId pos u cd hu hp hc hpos
  apply castV0_already _ _ _ _ _ hfind
  unfold arrayUnion
  simp [hp]

/-! ## Shared concrete fixtures -/

/-- A two-position roster in the shape seeded by `init-candidates.js`:
distinct ids, distinct names. -/
def rosterDemo : List Candidate :=
  [⟨"c1", "Alice A", "President"⟩, ⟨"c2", "Bob B", "President"⟩,
   ⟨"c3", "Carol C", "Treasurer"⟩]

/-- A fresh Firestore voter. -/
def fUser1 : FUser :=
  { id := "u1", institutionalEmail := "2203sen001@alhikmah.edu.ng",
    personalEmail := "ada@mail.com", matricNumber := "22/03sen001",
    fullName := "Ada Okoro", votedPositions := [], candidateIds := [],
    totalVotes := 0, sessionToken := "tok1", sessionExpiry := 1000,
    ipAddress := none, fingerprintHash := none, fingerprintCombined := none,
    status := "active" }

/-- The same voter after one recorded vote for President. -/
def fUser1Voted : FUser :=
  { fUser1 with votedPositions := ["President"],
                candidateIds := [("President", "c1")], totalVotes := 1 }

/-- A fresh SQLite voter, as created by the SQLite sign-in: the
`personalEmail` column carries the bcrypt hash of the address. -/
def sUser1 : SUser :=
  { id := "u1", institutionalEmail := "2203sen001@alhikmah.edu.ng",
    personalEmail := "$2b$10$N9qo8uLOickgx2ZMRZoMye", matricNumber := "22/03sen001",
    fullName := "Ada Okoro", deviceId := "dev1", status := "active",
    votedPositions := [], candidateIds := [], totalVotes := 0 }

/-! ## Claim C2 -/

/-- **C2.** For every voter and position, if the position is already in
the voter's voted-positions set, `cast` fails with `AlreadyVotedError`
and has no further durable effect on any state; repeating the same vote
call never double-counts.  First conjunct: the `part_000` transaction
(identically `part_001`/`part_003`) rejects with no state change.
Second conjunct: the SQLite route — whose already-voted check sits
after the candidate lookup — rejects with no state change.  Third
conjunct: replaying a call that just succeeded is rejected and changes
nothing, so no double count. -/
theorem claim_c2_already_voted_idempotent :
    (∀ (s : FState) (userId candidateId pos : String) (u : FUser),
      s.users.find? (fun x => x.id == userId) = some u →
      pos ∈ u.votedPositions →
      castV0 s userId candidateId pos = (.alreadyVoted, s)) ∧
    (∀ (s : SState) (e d candidateId pos : String) (now : Nat)
        (u0 u : SUser) (cand : Candidate),
      e ≠ "" → d ≠ "" →
      s.users.find? (fun x => x.institutionalEmail == e && x.deviceId == d) = some u0 →
      candidateId ≠ "" → pos ≠ "" →
      s.candidates.find? (fun c => c.id == candidateId && c.pos == pos) = some cand →
      s.users.find? (fun x => x.institutionalEmail == e) = some u →
      pos ∈ u.votedPositions →
      castSqlite s e d candidateId pos now = (.alreadyVoted, s)) ∧
    (∀ (s : FState) (userId candidateId pos : String),
      (castV0 s userId candidateId pos).1 = .success →
      castV0 (castV0 s userId candidateId pos).2 userId candidateId pos =
        (.alreadyVoted, (castV0 s userId candidateId pos).2)) :=
  ⟨castV0_already, castSqlite_already, castV0_repeat⟩

/-- Witness for C2 at a concrete store: a voter who already voted
President is rejected and the store is untouched. -/
theorem claim_c2_witness :
    castV0 ⟨[fUser1Voted], rosterDemo, [], []⟩ "u1" "c1" "President" =
      (.alreadyVoted, ⟨[fUser1Voted], rosterDemo, [], []⟩) :=
  claim_c2_already_voted_idempotent.1 _ "u1" "c1" "President" fUser1Voted
    (by decide) (by decide)

/-! ## Claim C1 -/

/-- A serialization of several vote requests by one voter for one
position, applied in order.  Firestore `runTransaction` bodies are
serializable (the serialization point of §5), so any concurrent
schedule of `CastVote(v, *, p)` calls is equivalent to one such
order. -/
def runCastsV0 (s : FState) (userId pos : String) (cids : List String) :
    List VoteRes × FState :=
  cids.foldl (fun acc candidateId =>
    (acc.1 ++ [(castV0 acc.2 userId candidateId pos).1],
     (castV0 acc.2 userId candidateId pos).2)) ([], s)

/-- Once the position is recorded for the voter, every remaining
serialized call is rejected and the state no longer moves. -/
theorem runCastsV0_all_already (s : FState) (userId pos : String) (u : FUser)
    (cids : List String) (acc : List VoteRes)
    (hu : s.users.find? (fun x => x.id == userId) = some u)
    (hp : pos ∈ u.votedPositions) :
    cids.foldl (fun acc candidateId =>
      (acc.1 ++ [(castV0 acc.2 userId candidateId pos).1],
       (castV0 acc.2 userId candidateId pos).2)) (acc, s) =
    (acc ++ cids.map (fun _ => VoteRes.alreadyVoted), s) := by
  induction cids generalizing acc with
  | nil => simp
  | cons c cs ih =>
      simp only [List.foldl_cons, List.map_cons]
      rw [castV0_already s userId c pos u hu hp]
      rw [ih (acc ++ [VoteRes.alreadyVoted])]
      simp

/-- **C1.** For every voter `v` and position `p`, issuing `N`
concurrent `CastVote(v, *, p)` calls results in exactly 1 success and
`N − 1` `AlreadyVotedError`: two concurrent casts for the same voter
and position never both succeed.  Concurrency is modelled as an
arbitrary serialization of the atomic `part_000` vote transactions
(`db.runTransaction` is serializable; in the SQLite variant the whole
check-then-write section runs synchronously on the event loop with no
intervening `await`, so it serializes the same way).  The candidates
of the calls are arbitrary members of the roster for `p`. -/
theorem claim_c1_at_most_once_per_position (s : FState) (userId pos : String)
    (u : FUser) (cids : List String)
    (hu : s.users.find? (fun x => x.id == userId) = some u)
    (hp : pos ∉ u.votedPositions)
    (hc : ∀ c ∈ cids, ∃ cd,
      s.candidates.find? (fun x => x.id == c) = some cd ∧ cd.pos = pos)
    (hne : cids ≠ []) :
    (runCastsV0 s userId pos cids).1.count .success = 1 ∧
    (runCastsV0 s userId pos cids).1.count .alreadyVoted = cids.length - 1 := by
  cases cids with
  | nil => exact absurd rfl hne
  | cons c cs =>
      obtain ⟨cd, hcd, hcdpos⟩ := hc c (List.mem_cons_self c cs)
      obtain ⟨h1, hfind, -, -⟩ := castV0_success s userId c pos u cd hu hp hcd hcdpos
      have hmem : pos ∈ arrayUnion u.votedPositions pos := by
        unfold arrayUnion; simp [hp]
      unfold runCastsV0
      rw [List.foldl_cons, h1]
      rw [runCastsV0_all_already _ userId pos _ cs _ hfind hmem]
      constructor
      · rw [List.map_const']
        simp [List.count_append, List.count_replicate]
      · rw [List.map_const']
        simp [List.count_append, List.count_replicate]

/-- Witness for C1: three serialized casts by a fresh voter for
President yield one success and two rejections. -/
theorem claim_c1_witness :
    (runCastsV0 ⟨[fUser1], rosterDemo, [], []⟩ "u1" "President"
        ["c1", "c2", "c1"]).1.count .success = 1 ∧
    (runCastsV0 ⟨[fUser1], rosterDemo, [], []⟩ "u1" "President"
        ["c1", "c2", "c1"]).1.count .alreadyVoted = 2 :=
  claim_c1_at_most_once_per_position _ "u1" "President" fUser1 _
    (by decide) (by decide)
    (by
      intro c hcmem
      fin_cases hcmem
      · exact ⟨⟨"c1", "Alice A", "President"⟩, by decide, rfl⟩
      · exact ⟨⟨"c2", "Bob B", "President"⟩, by decide, rfl⟩
      · exact ⟨⟨"c1", "Alice A", "President"⟩, by decide, rfl⟩)
    (by decide)

/-! ## Claim C3 -/

/-- A successful `part_001` vote transaction as a state equation: a
`Votes` document is written and the voter's `votedPositions` and
`totalVotes` move, but `candidateIds` is untouched. -/
theorem castV1_success_eq (s : FState) (userId candidateId pos inst : String)
    (u : FUser) (cd : Candidate)
    (hu : s.users.find? (fun x => x.id == userId) = some u)
    (hp : pos ∉ u.votedPositions)
    (hc : s.candidates.find? (fun c => c.id == candidateId) = some cd)
    (hpos : cd.pos = pos) :
    castV1 s userId candidateId pos inst =
      (.success, { s with
        votes := s.votes ++ [⟨candidateId, userId, jsToLower inst, pos, true⟩],
        users := s.users.map (fun x =>
          if x.id == userId then
            { x with
              votedPositions := arrayUnion x.votedPositions pos,
              totalVotes := x.totalVotes + 1 }
          else x) }) := by
  unfold castV1
  simp [hu, hp, hc, hpos]

/-- A successful SQLite vote route as a state equation: all four
effects — position list, vote list, counter, `Votes` row — in the one
`db.transaction`. -/
theorem castSqlite_success_eq (s : SState) (e d candidateId pos : String) (now : Nat)
    (u0 u : SUser) (cand : Candidate)
    (he : e ≠ "") (hd : d ≠ "")
    (hverify : s.users.find? (fun x => x.institutionalEmail == e && x.deviceId == d) =
      some u0)
    (hcid : candidateId ≠ "") (hpos0 : pos ≠ "")
    (hcand : s.candidates.find? (fun c => c.id == candidateId && c.pos == pos) =
      some cand)
    (hu : s.users.find? (fun x => x.institutionalEmail == e) = some u)
    (hp : pos ∉ u.votedPositions) :
    castSqlite s e d candidateId pos now =
      (.success, { s with
        users := s.users.map (fun x =>
          if x.institutionalEmail == e then
            { x with
              votedPositions := u.votedPositions ++ [pos],
              candidateIds := u.candidateIds ++ [(pos, candidateId)],
              totalVotes := x.totalVotes + 1 }
          else x),
        votes := s.votes ++ [⟨u.id, e, candidateId, cand.name, pos, now, true⟩] }) := by
  unfold castSqlite
  simp [he, hd, hverify, hcid, hpos0, hcand, hu, hp]

/-- A `part_000` vote transaction that does not succeed leaves the
store untouched (the thrown error aborts the transaction). -/
theorem castV0_rollback (s : FState) (userId candidateId pos : String)
    (r : VoteRes) (s' : FState)
    (hcast : castV0 s userId candidateId pos = (r, s')) (hr : r ≠ .success) :
    s' = s := by
  unfold castV0 at hcast
  repeat' split at hcast
  all_goals first
    | (cases hcast; rfl)
    | (cases hcast; exact absurd rfl hr)

/-- Same for the `part_001` transaction. -/
theorem castV1_rollback (s : FState) (userId candidateId pos inst : String)
    (r : VoteRes) (s' : FState)
    (hcast : castV1 s userId candidateId pos inst = (r, s')) (hr : r ≠ .success) :
    s' = s := by
  unfold castV1 at hcast
  repeat' split at hcast
  all_goals first
    | (cases hcast; rfl)
    | (cases hcast; exact absurd rfl hr)

/-- Same for the SQLite route: every rejection precedes the
`db.transaction`. -/
theorem castSqlite_rollback (s : SState) (e d candidateId pos : String) (now : Nat)
    (r : SVoteRes) (s' : SState)
    (hcast : castSqlite s e d candidateId pos now = (r, s')) (hr : r ≠ .success) :
    s' = s := by
  unfold castSqlite at hcast
  repeat' split at hcast
  all_goals first
    | (cases hcast; rfl)
    | (cases hcast; exact absurd rfl hr)

/-- **C3, counterexample.** At a concrete reachable store, a fresh
voter's cast through the `part_000` transaction succeeds, yet the
`Votes` collection stays empty: no durable Ballot record is created,
refuting "all four effects happen" as stated. -/
theorem claim_c3_counterexample :
    (castV0 ⟨[fUser1], rosterDemo, [], []⟩ "u1" "c1" "President").1 = .success ∧
    (castV0 ⟨[fUser1], rosterDemo, [], []⟩ "u1" "c1" "President").2.votes = [] := by
  decide

/-- **C3, amended.** A successful cast commits its effects in one
atomic transaction and any failure rolls back everything, but which of
the four effects exist depends on the variant: the SQLite route
performs all four (position list, vote list, counter, `Votes` row);
the `part_000` transaction performs only the first three and creates
no Ballot record; the `part_001` transaction creates the Ballot and
moves position list and counter but appends nothing to the voter's
vote list. -/
theorem claim_c3_amended_atomic_effects :
    (∀ (s : SState) (e d candidateId pos : String) (now : Nat)
        (u0 u : SUser) (cand : Candidate),
      e ≠ "" → d ≠ "" →
      s.users.find? (fun x => x.institutionalEmail == e && x.deviceId == d) = some u0 →
      candidateId ≠ "" → pos ≠ "" →
      s.candidates.find? (fun c => c.id == candidateId && c.pos == pos) = some cand →
      s.users.find? (fun x => x.institutionalEmail == e) = some u →
      pos ∉ u.votedPositions →
      (castSqlite s e d candidateId pos now).1 = .success ∧
      (castSqlite s e d candidateId pos now).2.users.find?
          (fun x => x.institutionalEmail == e) =
        some { u with
          votedPositions := u.votedPositions ++ [pos],
          candidateIds := u.candidateIds ++ [(pos, candidateId)],
          totalVotes := u.totalVotes + 1 } ∧
      (castSqlite s e d candidateId pos now).2.votes =
        s.votes ++ [⟨u.id, e, candidateId, cand.name, pos, now, true⟩]) ∧
    (∀ (s : FState) (userId candidateId pos : String) (u : FUser) (cd : Candidate),
      s.users.find? (fun x => x.id == userId) = some u →
      pos ∉ u.votedPositions →
      s.candidates.find? (fun c => c.id == candidateId) = some cd →
      cd.pos = pos →
      (castV0 s userId candidateId pos).1 = .success ∧
      (castV0 s userId candidateId pos).2.users.find? (fun x => x.id == userId) =
        some { u with
          votedPositions := arrayUnion u.votedPositions pos,
          candidateIds := arrayUnionPair u.candidateIds (pos, candidateId),
          totalVotes := u.totalVotes + 1 } ∧
      (castV0 s userId candidateId pos).2.votes = s.votes) ∧
    (∀ (s : FState) (userId candidateId pos inst : String) (u : FUser) (cd : Candidate),
      s.users.find? (fun x => x.id == userId) = some u →
      pos ∉ u.votedPositions →
      s.candidates.find? (fun c => c.id == candidateId) = some cd →
      cd.pos = pos →
      (castV1 s userId candidateId pos inst).1 = .success ∧
      (castV1 s userId candidateId pos inst).2.users.find? (fun x => x.id == userId) =
        some { u with
          votedPositions := arrayUnion u.votedPositions pos,
          totalVotes := u.totalVotes + 1 } ∧
      (castV1 s userId candidateId pos inst).2.votes =
        s.votes ++ [⟨candidateId, userId, jsToLower inst, pos, true⟩]) ∧
    (∀ (s : FState) (userId candidateId pos : String) (r : VoteRes) (s' : FState),
      castV0 s userId candidateId pos = (r, s') → r ≠ .success → s' = s) ∧
    (∀ (s : FState) (userId candidateId pos inst : String) (r : VoteRes) (s' : FState),
      castV1 s userId candidateId pos inst = (r, s') → r ≠ .success → s' = s) ∧
    (∀ (s : SState) (e d candidateId pos : String) (now : Nat) (r : SVoteRes) (s' : SState),
      castSqlite s e d candidateId pos now = (r, s') → r ≠ .success → s' = s) := by
  refine ⟨?_, ?_, ?_, castV0_rollback, castV1_rollback, castSqlite_rollback⟩
  · intro s e d candidateId pos now u0 u cand he hd hverify hcid hpos0 hcand hu hp
    rw [castSqlite_success_eq s e d candidateId pos now u0 u cand he hd hverify hcid
      hpos0 hcand hu hp]
    refine ⟨rfl, ?_, rfl⟩
    exact find?_map_update _ _ _ _ hu (fun x hx => hx)
  · intro s userId candidateId pos u cd hu hp hc hpos
    exact ⟨(castV0_success s userId candidateId pos u cd hu hp hc hpos).1,
      (castV0_success s userId candidateId pos u cd hu hp hc hpos).2.1,
      (castV0_success s userId candidateId pos u cd hu hp hc hpos).2.2.2⟩
  · intro s userId candidateId pos inst u cd hu hp hc hpos
    rw [castV1_success_eq s userId candidateId pos inst u cd hu hp hc hpos]
    refine ⟨rfl, ?_, rfl⟩
    exact find?_map_update _ _ _ _ hu (fun x hx => hx)

/-- Witness for the amended C3, exercising the SQLite conjunct at a
concrete store. -/
theorem claim_c3_amended_witness :
    (castSqlite ⟨[sUser1], rosterDemo, []⟩ "2203sen001@alhikmah.edu.ng" "dev1"
        "c1" "President" 5).1 = .success ∧
    (castSqlite ⟨[sUser1], rosterDemo, []⟩ "2203sen001@alhikmah.edu.ng" "dev1"
        "c1" "President" 5).2.users.find?
        (fun x => x.institutionalEmail == "2203sen001@alhikmah.edu.ng") =
      some { sUser1 with
        votedPositions := ["President"],
        candidateIds := [("President", "c1")],
        totalVotes := 1 } ∧
    (castSqlite ⟨[sUser1], rosterDemo, []⟩ "2203sen001@alhikmah.edu.ng" "dev1"
        "c1" "President" 5).2.votes =
      [⟨"u1", "2203sen001@alhikmah.edu.ng", "c1", "Alice A", "President", 5, true⟩] :=
  claim_c3_amended_atomic_effects.1 _ _ "dev1" "c1" "President" 5 sUser1 sUser1
    ⟨"c1", "Alice A", "President"⟩ (by decide) (by decide) (by decide) (by decide)
    (by decide) (by decide) (by decide) (by decide)

/-! ## Claim C7 -/

/-- **C7.** A token verified after its expiry timestamp always fails
with `SessionExpiredError`, a token unequal to the stored one also
fails, and equality and expiry are checked in one atomic read: the
handler issues a single store query carrying all three conditions
(email, token equality, `sessionExpiry > now`), embedded here as the
single `find?`; when no record passes all three the verification fails
closed.  First conjunct: if every record matching email and token is at
or past expiry, verification fails.  Second conjunct: if every record
matching the email stores a different token, verification fails. -/
theorem claim_c7_session_expiry_fails_closed :
    (∀ (s : FState) (e t : String) (now : Nat),
      (∀ u ∈ s.users, u.institutionalEmail = jsToLower e → u.sessionToken = t →
        u.sessionExpiry ≤ now) →
      verifySession s e t now = none) ∧
    (∀ (s : FState) (e t : String) (now : Nat),
      (∀ u ∈ s.users, u.institutionalEmail = jsToLower e → u.sessionToken ≠ t) →
      verifySession s e t now = none) := by
  constructor
  · intro s e t now h
    unfold verifySession
    split
    · rfl
    · rw [List.find?_eq_none]
      intro u hu hpu
      simp only [Bool.and_eq_true, beq_iff_eq, decide_eq_true_eq] at hpu
      obtain ⟨⟨hm1, hm2⟩, hm3⟩ := hpu
      exact absurd (h u hu hm1 hm2) (by omega)
  · intro s e t now h
    unfold verifySession
    split
    · rfl
    · rw [List.find?_eq_none]
      intro u hu hpu
      simp only [Bool.and_eq_true, beq_iff_eq, decide_eq_true_eq] at hpu
      obtain ⟨⟨hm1, hm2⟩, hm3⟩ := hpu
      exact absurd hm2 (h u hu hm1)

/-- Witness for C7: at the exact expiry timestamp (and after it) the
stored token is rejected. -/
theorem claim_c7_witness :
    verifySession ⟨[fUser1], rosterDemo, [], []⟩ "2203sen001@alhikmah.edu.ng"
      "tok1" 1000 = none :=
  claim_c7_session_expiry_fails_closed.1 _ _ "tok1" 1000 (by decide)

/-! ## Claim C5 -/

/-- The first component of the duplicate-personal-email fold is the
disjunction of the per-user matches. -/
theorem checkDuplicatePersonalEmail_fst (users : List FUser) (p : String)
    (acc : Bool × String) :
    (users.foldl (fun acc u =>
      if u.personalEmail != "" && jsToLower u.personalEmail == jsToLower p then
        (true, u.institutionalEmail)
      else acc) acc).1 =
    (acc.1 || users.any (fun u =>
      u.personalEmail != "" && jsToLower u.personalEmail == jsToLower p)) := by
  induction users generalizing acc with
  | nil => simp
  | cons u t ih =>
      simp only [List.foldl_cons, List.any_cons]
      by_cases hf : (u.personalEmail != "" && jsToLower u.personalEmail == jsToLower p) = true
      · rw [if_pos hf, ih, hf]
        simp
      · rw [if_neg hf, ih]
        rw [Bool.not_eq_true] at hf
        rw [hf]
        simp

/-- **C5, amended.** The Firestore variants (`part_000`,
`part_001`/`part_003` identically) block a sign-in whose personal email
is already bound to another voter — in fact to any voter — with the
duplicate-identity rejection and no state change; the SQLite variant
never reads another voter's personal email, so a new sign-in there
succeeds regardless of such a binding (refuting "always, regardless of
call order"). -/
theorem claim_c5_amended_duplicate_identity :
    (∀ (s : FState) (inst pers matric name token newId : String) (expiry : Nat)
        (u : FUser),
      validateCredentials inst pers matric name = none →
      u ∈ s.users →
      u.institutionalEmail ≠ jsToLower inst →
      u.personalEmail ≠ "" →
      jsToLower u.personalEmail = jsToLower (jsToLower pers) →
      signInV0 (.ok s.users) s inst pers matric name token newId expiry =
        (.emailBlocked, s)) ∧
    (∀ (h : String → String) (s : SState) (inst pers matric name did newId : String),
      inst ≠ "" → pers ≠ "" → matric ≠ "" → name ≠ "" → did ≠ "" →
      jsEndsWith inst "@alhikmah.edu.ng" = true →
      (∀ u ∈ s.users, u.deviceId ≠ did) →
      (∀ u ∈ s.users, u.institutionalEmail ≠ inst) →
      (signInSqlite h s inst pers matric name did newId).1 = .successNew) := by
  constructor
  · intro s inst pers matric name token newId expiry u hv hu hdiff hne hmatch
    have hdup : (checkDuplicatePersonalEmail (.ok s.users) (jsToLower pers)).1 = true := by
      unfold checkDuplicatePersonalEmail
      rw [checkDuplicatePersonalEmail_fst]
      simp only [Bool.false_or, List.any_eq_true]
      exact ⟨u, hu, by simp [hne, hmatch]⟩
    unfold signInV0
    simp [hv, hdup]
  · intro h s inst pers matric name did newId h1 h2 h3 h4 h5 hend hdev hinst
    have hdevN : s.users.find? (fun u => u.deviceId == did) = none := by
      rw [List.find?_eq_none]
      intro u hu
      simp [hdev u hu]
    have hinstN : s.users.find? (fun u => u.institutionalEmail == inst) = none := by
      rw [List.find?_eq_none]
      intro u hu
      simp [hinst u hu]
    unfold signInSqlite
    simp [h1, h2, h3, h4, h5, hend, hdevN, hinstN]

/-- Witness for the amended C5, first conjunct: a second student
reusing `ada@mail.com` against the `part_000` store is blocked. -/
theorem claim_c5_amended_witness :
    signInV0 (.ok [fUser1]) ⟨[fUser1], rosterDemo, [], []⟩
      "2203cyb002@alhikmah.edu.ng" "ada@mail.com" "22/03cyb002" "Bola Ade"
      "tok2" "u2" 2000 =
      (.emailBlocked, ⟨[fUser1], rosterDemo, [], []⟩) :=
  claim_c5_amended_duplicate_identity.1 ⟨[fUser1], rosterDemo, [], []⟩
    "2203cyb002@alhikmah.edu.ng" "ada@mail.com" "22/03cyb002" "Bola Ade" "tok2" "u2"
    2000 fUser1 (by decide) (by decide) (by decide) (by decide) (by decide)

/-- **C5, counterexample.** In the SQLite variant a store already
binding the personal email `ada@mail.com` (as its bcrypt hash, created
by the SQLite sign-in) to `2203sen001@alhikmah.edu.ng` does not block a
different institutional email signing in with that same personal
email: the sign-in succeeds instead of returning the duplicate-identity
error. -/
theorem claim_c5_counterexample :
    (signInSqlite (fun _ => "$2b$10$N9qo8uLOickgx2ZMRZoMye")
      ⟨[sUser1], rosterDemo, []⟩ "2203cyb002@alhikmah.edu.ng" "ada@mail.com"
      "22/03cyb002" "Bola Ade" "dev2" "u2").1 = .successNew := by
  decide

/-! ## Claim C6 -/

/-- The `deviceFound` component of the strict device-check fold is the
disjunction of the three per-user signal matches. -/
theorem checkDeviceUsed_found (users : List FUser) (ip fpHash fpCombined : String)
    (acc : DevCheck) :
    (users.foldl (fun acc u =>
      if u.fingerprintCombined == some fpCombined then
        ⟨true, u.institutionalEmail, some "EXACT_DEVICE"⟩
      else if u.ipAddress == some ip then
        ⟨true, u.institutionalEmail, some "SAME_NETWORK"⟩
      else if u.fingerprintHash == some fpHash then
        ⟨true, u.institutionalEmail, some "SAME_DEVICE_DIFFERENT_NETWORK"⟩
      else acc) acc).deviceFound =
    (acc.deviceFound || users.any (fun u =>
      u.fingerprintCombined == some fpCombined ||
      u.ipAddress == some ip ||
      u.fingerprintHash == some fpHash)) := by
  induction users generalizing acc with
  | nil => simp
  | cons u t ih =>
      simp only [List.foldl_cons, List.any_cons]
      by_cases h1 : (u.fingerprintCombined == some fpCombined) = true
      · rw [if_pos h1, ih, h1]; simp
      · rw [Bool.not_eq_true] at h1
        rw [if_neg (by simp [h1]), h1]
        by_cases h2 : (u.ipAddress == some ip) = true
        · rw [if_pos h2, ih, h2]; simp
        · rw [Bool.not_eq_true] at h2
          rw [if_neg (by simp [h2]), h2]
          by_cases h3 : (u.fingerprintHash == some fpHash) = true
          · rw [if_pos h3, ih, h3]; simp
          · rw [Bool.not_eq_true] at h3
            rw [if_neg (by simp [h3]), h3, ih]
            simp

/-- `fUser1` as `part_001` records it at creation: IP and fingerprint
stored on the document. -/
def fUser1Dev : FUser :=
  { fUser1 with ipAddress := some "1.2.3.4", fingerprintHash := some "fph",
                fingerprintCombined := some "1.2.3.4_fph" }

/-- **C6, counterexample.** In `part_001`, an identity matching its own
prior record — the store holds exactly one user, and the sign-in comes
from that same voter with the same fingerprint and IP recorded at
creation — is blocked at sign-in with the device-blocked rejection, so
the voter cannot resume an in-progress ballot set. -/
theorem claim_c6_counterexample :
    (signInV1 (.ok [fUser1Dev]) (.ok [fUser1Dev])
      ⟨[fUser1Dev], rosterDemo, [], []⟩
      "2203sen001@alhikmah.edu.ng" "ada@mail.com" "22/03sen001" "Ada Okoro"
      "1.2.3.4" "fph" "1.2.3.4_fph" "tok2" "u2" 2000).1 =
      .deviceBlocked (some "EXACT_DEVICE") := by
  decide

/-- **C6, amended.** The own-record exemption does not exist in
`part_001`: its strict device check scans every user record — the
caller's own included — and any match on combined fingerprint, IP or
fingerprint hash blocks the sign-in with a device-blocked rejection
and no state change.  A voter therefore cannot resume an in-progress
ballot set from their registered device in that variant. -/
theorem claim_c6_amended_own_record_blocks (s : FState)
    (inst pers matric name ip fpHash fpCombined token newId : String)
    (expiry : Nat) (u : FUser)
    (hv : validateCredentials inst pers matric name = none)
    (hu : u ∈ s.users)
    (hmatch : u.fingerprintCombined = some fpCombined ∨
      u.ipAddress = some ip ∨ u.fingerprintHash = some fpHash) :
    ∃ t, signInV1 (.ok s.users) (.ok s.users) s inst pers matric name
      ip fpHash fpCombined token newId expiry = (.deviceBlocked t, s) := by
  have hfound : (checkDeviceUsed (.ok s.users) ip fpHash fpCombined).deviceFound = true := by
    unfold checkDeviceUsed
    rw [checkDeviceUsed_found]
    simp only [Bool.false_or, List.any_eq_true]
    refine ⟨u, hu, ?_⟩
    rcases hmatch with h | h | h <;> simp [h]
  refine ⟨(checkDeviceUsed (.ok s.users) ip fpHash fpCombined).matchType, ?_⟩
  unfold signInV1
  simp [hv, hfound]

/-- Witness for the amended C6: the concrete own-record sign-in is
blocked. -/
theorem claim_c6_amended_witness :
    ∃ t, signInV1 (.ok [fUser1Dev]) (.ok [fUser1Dev])
      ⟨[fUser1Dev], rosterDemo, [], []⟩
      "2203sen001@alhikmah.edu.ng" "ada@mail.com" "22/03sen001" "Ada Okoro"
      "1.2.3.4" "fph" "1.2.3.4_fph" "tok2" "u2" 2000 =
      (.deviceBlocked t, ⟨[fUser1Dev], rosterDemo, [], []⟩) :=
  claim_c6_amended_own_record_blocks ⟨[fUser1Dev], rosterDemo, [], []⟩
    "2203sen001@alhikmah.edu.ng" "ada@mail.com" "22/03sen001" "Ada Okoro"
    "1.2.3.4" "fph" "1.2.3.4_fph" "tok2" "u2" 2000 fUser1Dev
    (by decide) (by decide) (Or.inl rfl)

/-! ## Claim C8 -/

/-- The SQLite completion route as a state equation: it only stamps
`status = 'completed'` on the row. -/
theorem completeVotingSqlite_eq (s : SState) (e d : String) (u0 : SUser)
    (he : e ≠ "") (hd : d ≠ "")
    (hverify : s.users.find? (fun x => x.institutionalEmail == e && x.deviceId == d) =
      some u0) :
    completeVotingSqlite s e d =
      (true, { s with users := s.users.map (fun x =>
        if x.institutionalEmail == e then { x with status := "completed" } else x) }) := by
  unfold completeVotingSqlite
  simp [he, hd, hverify]

/-- `sUser1` after one recorded vote for President. -/
def sUser1P : SUser :=
  { sUser1 with votedPositions := ["President"],
                candidateIds := [("President", "c1")], totalVotes := 1 }

/-- **C8, counterexample.** A voter completes voting (status becomes
`completed`), then casts for a further position through the same SQLite
routes — and the cast succeeds, because neither `verifyUser` nor the
vote handler reads `status`.  Completed is not absorbing. -/
theorem claim_c8_counterexample :
    (completeVotingSqlite ⟨[sUser1P], rosterDemo, []⟩
      "2203sen001@alhikmah.edu.ng" "dev1").1 = true ∧
    ((completeVotingSqlite ⟨[sUser1P], rosterDemo, []⟩
      "2203sen001@alhikmah.edu.ng" "dev1").2.users.map (fun x => x.status)) =
      ["completed"] ∧
    (castSqlite (completeVotingSqlite ⟨[sUser1P], rosterDemo, []⟩
        "2203sen001@alhikmah.edu.ng" "dev1").2
      "2203sen001@alhikmah.edu.ng" "dev1" "c3" "Treasurer" 9).1 = .success := by
  decide

/-- **C8, amended.** Completion stamps `status = 'completed'`, and a
completed voter is rejected at the *sign-in* route with the
already-voted error; but the vote route checks only `votedPositions`,
never `status`, so a completed voter holding a verified device/email
pair can still cast for any position not yet in their list: completed
is not a terminal state for casting. -/
theorem claim_c8_amended_completed_blocks_signin_not_cast :
    (∀ (s : SState) (e d : String) (u0 u : SUser),
      e ≠ "" → d ≠ "" →
      s.users.find? (fun x => x.institutionalEmail == e && x.deviceId == d) = some u0 →
      s.users.find? (fun x => x.institutionalEmail == e) = some u →
      (completeVotingSqlite s e d).1 = true ∧
      (completeVotingSqlite s e d).2.users.find? (fun x => x.institutionalEmail == e) =
        some { u with status := "completed" }) ∧
    (∀ (s : SState) (e d candidateId pos : String) (now : Nat)
        (u0 u : SUser) (cand : Candidate),
      e ≠ "" → d ≠ "" →
      s.users.find? (fun x => x.institutionalEmail == e && x.deviceId == d) = some u0 →
      candidateId ≠ "" → pos ≠ "" →
      s.candidates.find? (fun c => c.id == candidateId && c.pos == pos) = some cand →
      s.users.find? (fun x => x.institutionalEmail == e) = some u →
      u.status = "completed" →
      pos ∉ u.votedPositions →
      (castSqlite s e d candidateId pos now).1 = .success) ∧
    (∀ (h : String → String) (s : SState)
        (inst pers matric name did newId : String) (u : SUser),
      inst ≠ "" → pers ≠ "" → matric ≠ "" → name ≠ "" → did ≠ "" →
      jsEndsWith inst "@alhikmah.edu.ng" = true →
      (∀ x ∈ s.users, x.deviceId = did → x.institutionalEmail = inst) →
      s.users.find? (fun x => x.institutionalEmail == inst) = some u →
      u.status = "completed" →
      (signInSqlite h s inst pers matric name did newId).1 = .alreadyVoted) := by
  refine ⟨?_, ?_, ?_⟩
  · intro s e d u0 u he hd hverify hu
    rw [completeVotingSqlite_eq s e d u0 he hd hverify]
    exact ⟨rfl, find?_map_update _ _ _ _ hu (fun x hx => hx)⟩
  · intro s e d candidateId pos now u0 u cand he hd hverify hcid hpos0 hcand hu hstatus hp
    rw [castSqlite_success_eq s e d candidateId pos now u0 u cand he hd hverify hcid
      hpos0 hcand hu hp]
  · intro h s inst pers matric name did newId u h1 h2 h3 h4 h5 hend hdev hu hstatus
    unfold signInSqlite
    cases hf : s.users.find? (fun x => x.deviceId == did) with
    | none => simp [h1, h2, h3, h4, h5, hend, hf, hu, hstatus]
    | some ed =>
        have hne : ed.institutionalEmail = inst :=
          hdev ed (List.mem_of_find?_eq_some hf) (by simpa using List.find?_some hf)
        simp [h1, h2, h3, h4, h5, hend, hf, hne, hu, hstatus]

/-- `sUser1P` marked completed. -/
def sUser1C : SUser := { sUser1P with status := "completed" }

/-- Witness for the amended C8: the completed voter's further cast
succeeds. -/
theorem claim_c8_amended_witness :
    (castSqlite ⟨[sUser1C], rosterDemo, []⟩ "2203sen001@alhikmah.edu.ng" "dev1"
      "c3" "Treasurer" 9).1 = .success :=
  claim_c8_amended_completed_blocks_signin_not_cast.2.1
    ⟨[sUser1C], rosterDemo, []⟩ "2203sen001@alhikmah.edu.ng" "dev1" "c3" "Treasurer" 9
    sUser1C sUser1C ⟨"c3", "Carol C", "Treasurer"⟩
    (by decide) (by decide) (by decide) (by decide) (by decide) (by decide)
    (by decide) (by decide) (by decide)

/-! ## Claim C9 -/

/-- A fresh SQLite sign-in (no device or email conflict) creates the
user row, storing `h pers` — the bcrypt hash — in the `personalEmail`
column. -/
theorem signInSqlite_new_eq (h : String → String) (s : SState)
    (inst pers matric name did newId : String)
    (h1 : inst ≠ "") (h2 : pers ≠ "") (h3 : matric ≠ "") (h4 : name ≠ "")
    (h5 : did ≠ "")
    (hend : jsEndsWith inst "@alhikmah.edu.ng" = true)
    (hdev : s.users.find? (fun x => x.deviceId == did) = none)
    (hinst : s.users.find? (fun x => x.institutionalEmail == inst) = none) :
    signInSqlite h s inst pers matric name did newId =
      (.successNew, { s with users := s.users ++
        [{ id := newId, institutionalEmail := inst, personalEmail := h pers,
           matricNumber := matric, fullName := name, deviceId := did,
           status := "active", votedPositions := [], candidateIds := [],
           totalVotes := 0 }] }) := by
  unfold signInSqlite
  simp [h1, h2, h3, h4, h5, hend, hdev, hinst]

/-- **C9.** The SQLite sign-in stores `bcrypt.hash(personalEmail)` at
user creation and, on a returning sign-in, compares that stored hash
for string equality against the submitted plaintext.  Therefore, for
any hash function whose output differs from the input — bcrypt outputs
`$2b$…` strings, never the submitted address — a voter who signs up
and then signs in again with the same (correct) personal email is
always rejected with the `emailBlocked` error: the resume path through
matching personal email is unreachable for users this route created. -/
theorem claim_c9_hash_blocks_resume (h : String → String) (s : SState)
    (inst pers matric name did newId newId' : String)
    (h1 : inst ≠ "") (h2 : pers ≠ "") (h3 : matric ≠ "") (h4 : name ≠ "")
    (h5 : did ≠ "")
    (hend : jsEndsWith inst "@alhikmah.edu.ng" = true)
    (hdev : ∀ u ∈ s.users, u.deviceId ≠ did)
    (hinst : ∀ u ∈ s.users, u.institutionalEmail ≠ inst)
    (hhash : h pers ≠ pers) :
    (signInSqlite h s inst pers matric name did newId).1 = .successNew ∧
    (signInSqlite h (signInSqlite h s inst pers matric name did newId).2
      inst pers matric name did newId').1 = .emailBlocked := by
  have hdevN : s.users.find? (fun x => x.deviceId == did) = none := by
    rw [List.find?_eq_none]
    intro x hx
    simp [hdev x hx]
  have hinstN : s.users.find? (fun x => x.institutionalEmail == inst) = none := by
    rw [List.find?_eq_none]
    intro x hx
    simp [hinst x hx]
  rw [signInSqlite_new_eq h s inst pers matric name did newId h1 h2 h3 h4 h5 hend
    hdevN hinstN]
  refine ⟨rfl, ?_⟩
  have hfd : (s.users ++
      [{ id := newId, institutionalEmail := inst, personalEmail := h pers,
         matricNumber := matric, fullName := name, deviceId := did,
         status := "active", votedPositions := [], candidateIds := [],
         totalVotes := 0 : SUser }]).find? (fun x => x.deviceId == did) =
      some { id := newId, institutionalEmail := inst, personalEmail := h pers,
             matricNumber := matric, fullName := name, deviceId := did,
             status := "active", votedPositions := [], candidateIds := [],
             totalVotes := 0 } := by
    rw [List.find?_append, hdevN]
    simp
  have hfe : (s.users ++
      [{ id := newId, institutionalEmail := inst, personalEmail := h pers,
         matricNumber := matric, fullName := name, deviceId := did,
         status := "active", votedPositions := [], candidateIds := [],
         totalVotes := 0 : SUser }]).find? (fun x => x.institutionalEmail == inst) =
      some { id := newId, institutionalEmail := inst, personalEmail := h pers,
             matricNumber := matric, fullName := name, deviceId := did,
             status := "active", votedPositions := [], candidateIds := [],
             totalVotes := 0 } := by
    rw [List.find?_append, hinstN]
    simp
  unfold signInSqlite
  simp [h1, h2, h3, h4, h5, hend, hfd, hfe, hhash]

/-- Witness for C9: the concrete sign-up / repeat-sign-in pair, with a
fixed bcrypt-shaped hash value. -/
theorem claim_c9_witness :
    (signInSqlite (fun _ => "$2b$10$N9qo8uLOickgx2ZMRZoMye") ⟨[], rosterDemo, []⟩
      "2203sen001@alhikmah.edu.ng" "ada@mail.com" "22/03sen001" "Ada Okoro"
      "dev1" "u1").1 = .successNew ∧
    (signInSqlite (fun _ => "$2b$10$N9qo8uLOickgx2ZMRZoMye")
      (signInSqlite (fun _ => "$2b$10$N9qo8uLOickgx2ZMRZoMye") ⟨[], rosterDemo, []⟩
        "2203sen001@alhikmah.edu.ng" "ada@mail.com" "22/03sen001" "Ada Okoro"
        "dev1" "u1").2
      "2203sen001@alhikmah.edu.ng" "ada@mail.com" "22/03sen001" "Ada Okoro"
      "dev1" "u2").1 = .emailBlocked :=
  claim_c9_hash_blocks_resume (fun _ => "$2b$10$N9qo8uLOickgx2ZMRZoMye")
    ⟨[], rosterDemo, []⟩ "2203sen001@alhikmah.edu.ng" "ada@mail.com" "22/03sen001"
    "Ada Okoro" "dev1" "u1" "u2" (by decide) (by decide) (by decide) (by decide)
    (by decide) (by decide) (by decide) (by decide) (by decide)

/-! ## Claim C10 -/

/-- The shared validation block never produces the duplicate-identity
rejection. -/
theorem validateCredentials_ne_emailBlocked (inst pers matric name : String) :
    validateCredentials inst pers matric name ≠ some .emailBlocked := by
  unfold validateCredentials
  intro hcontra
  repeat' split at hcontra
  all_goals simp at hcontra
  all_goals split_ifs at hcontra
  all_goals simp at hcontra

/-- **C10.** Every duplicate-detection helper returns "no duplicate
found" when its underlying store read throws: duplicate detection
fails open on store errors.  The final conjunct lifts this to the
`part_000` sign-in: with a throwing store read behind the
duplicate-personal-email check, the sign-in can never answer
`emailBlocked` — it proceeds as if no duplicate existed. -/
theorem claim_c10_duplicate_checks_fail_open :
    (∀ (e : Unit) (p : String),
      checkDuplicatePersonalEmail (.error e) p = (false, "")) ∧
    (∀ (e : Unit) (ip fpHash fpCombined : String),
      checkDeviceUsed (.error e) ip fpHash fpCombined = ⟨false, "", none⟩) ∧
    (∀ (e : Unit) (ip : String), checkIPCompletedVoting (.error e) ip = false) ∧
    (∀ (e : Unit) (ip : String), checkIPSignedIn (.error e) ip = false) ∧
    (∀ (s : FState) (inst pers matric name token newId : String) (expiry : Nat),
      (signInV0 (.error ()) s inst pers matric name token newId expiry).1 ≠
        .emailBlocked) := by
  refine ⟨fun _ _ => rfl, fun _ _ _ _ => rfl, fun _ _ => rfl, fun _ _ => rfl, ?_⟩
  intro s inst pers matric name token newId expiry hcontra
  unfold signInV0 at hcontra
  cases hv : validateCredentials inst pers matric name with
  | some e =>
      rw [hv] at hcontra
      simp at hcontra
      exact validateCredentials_ne_emailBlocked inst pers matric name (hcontra ▸ hv)
  | none =>
      rw [hv] at hcontra
      simp only [checkDuplicatePersonalEmail] at hcontra
      simp at hcontra
      split at hcontra
      · split at hcontra
        · simp at hcontra
        · simp at hcontra
      · simp at hcontra

/-! ## Claim C4: the stable descending sort -/

/-- Membership in an insertion step. -/
theorem mem_insertDesc (e x : String × Nat) (l : List (String × Nat)) :
    x ∈ insertDesc e l ↔ x = e ∨ x ∈ l := by
  induction l with
  | nil => simp [insertDesc]
  | cons f t ih =>
      unfold insertDesc
      by_cases h : f.2 < e.2
      · simp [h, or_comm, or_assoc, or_left_comm]
      · simp only [if_neg h, List.mem_cons, ih]
        tauto

/-- Inserting keeps the list sorted descending by count. -/
theorem insertDesc_sorted (e : String × Nat) (l : List (String × Nat))
    (hl : l.Pairwise (fun a b => b.2 ≤ a.2)) :
    (insertDesc e l).Pairwise (fun a b => b.2 ≤ a.2) := by
  induction l with
  | nil => simp [insertDesc]
  | cons f t ih =>
      rw [List.pairwise_cons] at hl
      unfold insertDesc
      by_cases h : f.2 < e.2
      · rw [if_pos h]
        refine List.Pairwise.cons ?_ (List.Pairwise.cons hl.1 hl.2)
        intro x hx
        rcases List.mem_cons.mp hx with rfl | hx
        · omega
        · have := hl.1 x hx
          omega
      · rw [if_neg h]
        refine List.Pairwise.cons ?_ (ih hl.2)
        intro x hx
        rcases (mem_insertDesc e x t).mp hx with rfl | hx
        · omega
        · exact hl.1 x hx

/-- Inserting into a sorted list puts the new entry after every entry
with the same count: the filter at any count grows only at its end. -/
theorem insertDesc_filter (e : String × Nat) (l : List (String × Nat)) (k : Nat)
    (hl : l.Pairwise (fun a b => b.2 ≤ a.2)) :
    (insertDesc e l).filter (fun x => x.2 == k) =
      l.filter (fun x => x.2 == k) ++ (if e.2 == k then [e] else []) := by
  induction l with
  | nil => simp [insertDesc, List.filter_cons]
  | cons f t ih =>
      rw [List.pairwise_cons] at hl
      unfold insertDesc
      by_cases h : f.2 < e.2
      · rw [if_pos h]
        by_cases hek : (e.2 == k) = true
        · have hkval : e.2 = k := by simpa using hek
          have hf : (f.2 == k) = false := by
            simp only [beq_eq_false_iff_ne, ne_eq]
            omega
          have ht : t.filter (fun x => x.2 == k) = [] := by
            rw [List.filter_eq_nil_iff]
            intro x hx
            have := hl.1 x hx
            simp only [beq_iff_eq]
            omega
          simp [List.filter_cons, hek, hf, ht]
        · have hf := hek
          simp only [Bool.not_eq_true] at hf
          simp [List.filter_cons, hf]
      · rw [if_neg h]
        rw [List.filter_cons, List.filter_cons]
        by_cases hfk : (f.2 == k) = true
        · simp only [hfk, if_true, ih hl.2, List.cons_append]
        · simp only [Bool.not_eq_true] at hfk
          simp only [hfk, Bool.false_eq_true, if_false, ih hl.2]

/-- The accumulator-based insertion sort, characterized on sorted
accumulators: sorted output, and the filter at each count is the
accumulator's part followed by the input's part in input order. -/
theorem foldl_insertDesc (l : List (String × Nat)) (acc : List (String × Nat))
    (hacc : acc.Pairwise (fun a b => b.2 ≤ a.2)) :
    (l.foldl (fun acc e => insertDesc e acc) acc).Pairwise (fun a b => b.2 ≤ a.2) ∧
    ∀ k, (l.foldl (fun acc e => insertDesc e acc) acc).filter (fun x => x.2 == k) =
      acc.filter (fun x => x.2 == k) ++ l.filter (fun x => x.2 == k) := by
  induction l generalizing acc with
  | nil => simpa using hacc
  | cons e t ih =>
      simp only [List.foldl_cons]
      obtain ⟨ih1, ih2⟩ := ih (insertDesc e acc) (insertDesc_sorted e acc hacc)
      refine ⟨ih1, fun k => ?_⟩
      rw [ih2 k, insertDesc_filter e acc k hacc, List.filter_cons]
      by_cases hek : (e.2 == k) = true
      · simp [hek]
      · simp only [Bool.not_eq_true] at hek
        simp [hek]

/-- `sortDesc` sorts descending by count. -/
theorem sortDesc_sorted (l : List (String × Nat)) :
    (sortDesc l).Pairwise (fun a b => b.2 ≤ a.2) :=
  (foldl_insertDesc l [] (by simp)).1

/-- `sortDesc` is stable: entries sharing a count keep their input
order. -/
theorem sortDesc_filter (l : List (String × Nat)) (k : Nat) :
    (sortDesc l).filter (fun x => x.2 == k) = l.filter (fun x => x.2 == k) := by
  have := (foldl_insertDesc l [] (by simp)).2 k
  simpa [sortDesc] using this

/-! ## Claim C4: shape of the counting table -/

/-- The counting table in canonical form: one entry per distinct
position in first-appearance order, carrying the position's roster in
roster order with a count for each candidate. -/
def canonCounts (cs : List Candidate) (f : Candidate → Nat) :
    List (String × List (String × Nat)) :=
  (positionsOf cs).map (fun pos => (pos, (rosterFor cs pos).map (fun c => (c.name, f c))))

theorem positionsOf_append (cs : List Candidate) (c : Candidate) :
    positionsOf (cs ++ [c]) =
      if (positionsOf cs).contains c.pos then positionsOf cs
      else positionsOf cs ++ [c.pos] := by
  unfold positionsOf
  rw [List.foldl_append]
  rfl

theorem mem_positionsOf (cs : List Candidate) (p : String) :
    p ∈ positionsOf cs ↔ ∃ c ∈ cs, c.pos = p := by
  induction cs using List.reverseRecOn with
  | nil => simp [positionsOf]
  | append_singleton cs c ih =>
      rw [positionsOf_append]
      by_cases h : (positionsOf cs).contains c.pos
      · rw [if_pos h, ih]
        constructor
        · rintro ⟨c', hc', rfl⟩
          exact ⟨c', by simp [hc'], rfl⟩
        · rintro ⟨c', hc', rfl⟩
          have hc2 : c' ∈ cs ∨ c' = c := by simpa using hc'
          rcases hc2 with hc2 | rfl
          · exact ⟨c', hc2, rfl⟩
          · exact ih.mp (contains_eq_true_iff.mp h)
      · rw [if_neg h]
        simp only [List.mem_append, List.mem_singleton, ih]
        constructor
        · rintro (⟨c', hc', rfl⟩ | rfl)
          · exact ⟨c', Or.inl hc', rfl⟩
          · exact ⟨c, Or.inr rfl, rfl⟩
        · rintro ⟨c', hc', rfl⟩
          rcases hc' with hc' | rfl
          · exact Or.inl ⟨c', hc', rfl⟩
          · exact Or.inr rfl

theorem positionsOf_nodup (cs : List Candidate) : (positionsOf cs).Nodup := by
  induction cs using List.reverseRecOn with
  | nil => simp [positionsOf]
  | append_singleton cs c ih =>
      rw [positionsOf_append]
      by_cases h : (positionsOf cs).contains c.pos
      · rwa [if_pos h]
      · rw [if_neg h]
        rw [List.nodup_append]
        refine ⟨ih, by simp, ?_⟩
        intro x hx hx'
        have : x = c.pos := by simpa using hx'
        subst this
        exact h (contains_eq_true_iff.mpr hx)

theorem rosterFor_append (cs : List Candidate) (c : Candidate) (pos : String) :
    rosterFor (cs ++ [c]) pos =
      rosterFor cs pos ++ if c.pos == pos then [c] else [] := by
  unfold rosterFor
  rw [List.filter_append]
  congr 1
  simp [List.filter_cons]

/-- If the position never occurs, the roster is empty. -/
theorem rosterFor_eq_nil (cs : List Candidate) (p : String)
    (h : p ∉ positionsOf cs) : rosterFor cs p = [] := by
  rw [rosterFor, List.filter_eq_nil_iff]
  intro c hc hcp
  exact h ((mem_positionsOf cs p).mpr ⟨c, hc, by simpa using hcp⟩)

/-- `find?` on a keyed map succeeds exactly on present keys. -/
theorem find?_keyed_isSome (ps : List String) (g : String → List (String × Nat))
    (p : String) :
    ((ps.map (fun q => (q, g q))).find? (fun e => e.1 == p)).isSome =
      ps.contains p := by
  induction ps with
  | nil => simp
  | cons q t ih =>
      simp only [List.map_cons]
      by_cases h : (q == p) = true
      · rw [List.find?_cons_of_pos _ (by simpa using h)]
        simp [h, show q = p from by simpa using h]
      · rw [List.find?_cons_of_neg _ (by simpa using h)]
        rw [ih]
        have hqp : q ≠ p := by simpa using h
        simp [List.contains_cons, hqp, Ne.symm hqp]

/-- Updating the values at one key of a keyed map. -/
theorem map_update_keyed (ps : List String) (g : String → List (String × Nat))
    (p : String) (F : List (String × Nat) → List (String × Nat)) :
    (ps.map (fun q => (q, g q))).map
        (fun e => if e.1 == p then (e.1, F e.2) else e) =
      ps.map (fun q => (q, if q == p then F (g q) else g q)) := by
  rw [List.map_map]
  refine List.map_congr_left ?_
  intro q _
  by_cases h : (q == p) = true
  · simp [Function.comp, h]
  · simp only [Bool.not_eq_true] at h
    simp [Function.comp, h]

/-- The initialization loop builds exactly the canonical table of
zeros. -/
theorem initCounts_eq_canon (cs : List Candidate) :
    initCounts cs = canonCounts cs (fun _ => 0) := by
  induction cs using List.reverseRecOn with
  | nil => rfl
  | append_singleton cs c ih =>
      have hstep : initCounts (cs ++ [c]) =
          (if ((initCounts cs).find? (fun e => e.1 == c.pos)).isSome then
            (initCounts cs).map (fun e =>
              if e.1 == c.pos then (e.1, e.2 ++ [(c.name, 0)]) else e)
          else initCounts cs ++ [(c.pos, [(c.name, 0)])]) := by
        unfold initCounts
        rw [List.foldl_append]
        rfl
      rw [hstep, ih]
      unfold canonCounts
      rw [find?_keyed_isSome (positionsOf cs) _ c.pos]
      by_cases h : (positionsOf cs).contains c.pos
      · rw [if_pos h, positionsOf_append, if_pos h]
        rw [map_update_keyed (positionsOf cs)
          (fun pos => (rosterFor cs pos).map (fun c => (c.name, 0))) c.pos
          (fun l => l ++ [(c.name, 0)])]
        refine List.map_congr_left ?_
        intro q _
        rw [rosterFor_append, List.map_append]
        by_cases hq : (c.pos == q) = true
        · have hq' : c.pos = q := by simpa using hq
          simp [hq, hq'.symm]
        · simp only [Bool.not_eq_true] at hq
          have hq2 : c.pos ≠ q := by simpa using hq
          simp [hq, Ne.symm hq2]
      · rw [if_neg h, positionsOf_append, if_neg h]
        rw [List.map_append]
        congr 1
        · refine List.map_congr_left ?_
          intro q hq
          rw [rosterFor_append]
          have : ¬(c.pos == q) = true := by
            simp only [beq_iff_eq]
            intro hqq
            exact h (contains_eq_true_iff.mpr (hqq ▸ hq))
          simp only [Bool.not_eq_true] at this
          simp [this]
        · have hnil : rosterFor cs c.pos = [] :=
            rosterFor_eq_nil cs c.pos (fun hmem => h (contains_eq_true_iff.mpr hmem))
          simp [rosterFor_append, hnil]

/-- `canonCounts` only looks at the counts of roster members. -/
theorem canonCounts_congr (cs : List Candidate) (f f' : Candidate → Nat)
    (h : ∀ c ∈ cs, f c = f' c) : canonCounts cs f = canonCounts cs f' := by
  unfold canonCounts
  refine List.map_congr_left ?_
  intro q _
  refine congrArg _ (List.map_congr_left ?_)
  intro c hc
  rw [h c (List.mem_of_mem_filter hc)]

/-! ## Claim C4: the counting fold -/

theorem mem_rosterFor {cs : List Candidate} {p : String} {c : Candidate} :
    c ∈ rosterFor cs p ↔ c ∈ cs ∧ c.pos = p := by
  simp [rosterFor, List.mem_filter]

/-- With distinct names, bumping the first name-match increments
exactly that candidate's count. -/
theorem bumpFirst_map (l : List Candidate) (f : Candidate → Nat) (cd : Candidate)
    (hnames : (l.map (fun c => c.name)).Nodup) (hcd : cd ∈ l) :
    bumpFirst (l.map (fun c => (c.name, f c))) cd.name =
      l.map (fun c => (c.name, if c.name == cd.name then f c + 1 else f c)) := by
  induction l with
  | nil => simp at hcd
  | cons a t ih =>
      simp only [List.map_cons, List.nodup_cons] at hnames ⊢
      unfold bumpFirst
      by_cases h : (a.name == cd.name) = true
      · rw [if_pos h]
        have ha : a.name = cd.name := by simpa using h
        simp only [h, if_true]
        congr 1
        refine List.map_congr_left ?_
        intro c hc
        have hcn : c.name ≠ cd.name := by
          intro he
          exact hnames.1 (ha ▸ he ▸ List.mem_map_of_mem (fun c => c.name) hc)
        simp [hcn]
      · rw [if_neg h]
        have ha : a.name ≠ cd.name := by simpa using h
        have hcdt : cd ∈ t := by
          rcases List.mem_cons.mp hcd with rfl | hcdt
          · exact absurd rfl ha
          · exact hcdt
        simp only [Bool.not_eq_true] at h
        rw [ih hnames.2 hcdt]
        simp [h]

/-- One vote against the canonical table: with distinct candidate ids
and per-position distinct names, it increments exactly the matched
candidate's count. -/
theorem applyVote_canon (cs : List Candidate) (f : Candidate → Nat) (v : FVote)
    (hids : (cs.map (fun c => c.id)).Nodup)
    (hnames : ∀ p, ((rosterFor cs p).map (fun c => c.name)).Nodup) :
    applyVote cs (canonCounts cs f) v =
      canonCounts cs (fun c =>
        if v.isValid && (v.candidateId == c.id) && (v.pos == c.pos) then f c + 1
        else f c) := by
  unfold applyVote
  cases hval : v.isValid with
  | false =>
      simp only [Bool.false_eq_true, if_false]
      exact canonCounts_congr _ _ _ (fun c _ => by simp [hval])
  | true =>
      simp only [if_true]
      cases hfind : cs.find? (fun c => c.id == v.candidateId) with
      | none =>
          refine canonCounts_congr _ _ _ (fun c hc => ?_)
          have := List.find?_eq_none.mp hfind c hc
          have hne : v.candidateId ≠ c.id := fun he => this (by simp [he])
          simp [hne]
      | some cd =>
          have hcdid : cd.id = v.candidateId := by simpa using List.find?_some hfind
          have hcdmem := List.mem_of_find?_eq_some hfind
          by_cases hpos : (cd.pos == v.pos) = true
          · have hpos' : cd.pos = v.pos := by simpa using hpos
            dsimp only
            rw [if_pos hpos]
            unfold canonCounts
            rw [map_update_keyed (positionsOf cs)
              (fun pos => (rosterFor cs pos).map (fun c => (c.name, f c))) v.pos
              (fun l => bumpFirst l cd.name)]
            refine List.map_congr_left ?_
            intro q hq
            by_cases hqv : (q == v.pos) = true
            · have hqv' : q = v.pos := by simpa using hqv
              rw [if_pos hqv, hqv']
              have hcdro : cd ∈ rosterFor cs v.pos :=
                mem_rosterFor.mpr ⟨hcdmem, hpos'⟩
              rw [bumpFirst_map (rosterFor cs v.pos) f cd (hnames v.pos) hcdro]
              refine congrArg _ (List.map_congr_left ?_)
              intro c hcro
              obtain ⟨hcs, hcp⟩ := mem_rosterFor.mp hcro
              have heqc : (c.name == cd.name) =
                  (v.isValid && (v.candidateId == c.id) && (v.pos == c.pos)) := by
                rw [hval]
                by_cases hceq : c = cd
                · rw [hceq]
                  have h1 : (v.candidateId == cd.id) = true := by simp [hcdid]
                  have h2 : (v.pos == cd.pos) = true := by simp [hpos']
                  simp [h1, h2]
                · have hnm : (c.name == cd.name) = false := by
                    simp only [beq_eq_false_iff_ne, ne_eq]
                    intro he
                    exact hceq (List.inj_on_of_nodup_map (hnames v.pos) hcro hcdro he)
                  have hid : (v.candidateId == c.id) = false := by
                    simp only [beq_eq_false_iff_ne, ne_eq]
                    intro he
                    refine hceq (List.inj_on_of_nodup_map hids hcs hcdmem ?_)
                    show c.id = cd.id
                    rw [← he, ← hcdid]
                  rw [hnm, hid]
                  simp
              rw [heqc]
              simp [hval]
            · rw [if_neg hqv]
              refine congrArg _ (List.map_congr_left ?_)
              intro c hcro
              obtain ⟨hcs, hcp⟩ := mem_rosterFor.mp hcro
              have hqv2 : q ≠ v.pos := by simpa using hqv
              have : (v.pos == c.pos) = false := by
                simp only [beq_eq_false_iff_ne, ne_eq]
                intro he
                exact hqv2 (by rw [← hcp, ← he])
              simp [this]
          · dsimp only
            rw [if_neg hpos]
            refine canonCounts_congr _ _ _ (fun c hc => ?_)
            by_cases hid : (v.candidateId == c.id) = true
            · have hcid : c.id = cd.id := by
                have h' : v.candidateId = c.id := by simpa using hid
                rw [← h', hcdid]
              have hceq : c = cd := List.inj_on_of_nodup_map hids hc hcdmem hcid
              have hp2 : (v.pos == c.pos) = false := by
                rw [hceq]
                simp only [beq_eq_false_iff_ne, ne_eq]
                intro he
                exact hpos (by simp [he])
              simp [hp2]
            · simp only [Bool.not_eq_true] at hid
              simp [hid]

/-- Folding the votes over the canonical table counts, per candidate,
the valid ballots matching its id and position. -/
theorem foldl_applyVote (cs : List Candidate)
    (hids : (cs.map (fun c => c.id)).Nodup)
    (hnames : ∀ p, ((rosterFor cs p).map (fun c => c.name)).Nodup)
    (vs : List FVote) :
    ∀ f : Candidate → Nat,
      vs.foldl (applyVote cs) (canonCounts cs f) =
        canonCounts cs (fun c => f c + countMatch vs c) := by
  induction vs with
  | nil =>
      intro f
      exact (canonCounts_congr _ _ _ (fun c _ => by simp [countMatch])).symm
  | cons v t ih =>
      intro f
      rw [List.foldl_cons, applyVote_canon cs f v hids hnames, ih]
      refine canonCounts_congr _ _ _ (fun c _ => ?_)
      unfold countMatch
      rw [List.filter_cons]
      by_cases hv : (v.isValid && (v.candidateId == c.id) && (v.pos == c.pos)) = true
      · simp only [hv, if_true, List.length_cons]
        omega
      · simp only [Bool.not_eq_true] at hv
        simp [hv]

/-- The public tally of `part_003`, in closed form: one entry per
position in roster first-appearance order, each carrying the stable
descending sort of the roster-ordered valid-ballot counts. -/
theorem publicVotesV3_eq (s : FState)
    (hids : (s.candidates.map (fun c => c.id)).Nodup)
    (hnames : ∀ p, ((rosterFor s.candidates p).map (fun c => c.name)).Nodup) :
    publicVotesV3 s = (positionsOf s.candidates).map (fun pos =>
      (pos, sortDesc ((rosterFor s.candidates pos).map
        (fun c => (c.name, countMatch s.votes c))))) := by
  unfold publicVotesV3
  rw [initCounts_eq_canon, foldl_applyVote s.candidates hids hnames s.votes]
  rw [canonCounts_congr s.candidates _ (fun c => countMatch s.votes c)
    (fun c _ => by simp)]
  unfold canonCounts
  rw [List.map_map]
  rfl

/-- Globally distinct candidate names make every position's roster
names distinct. -/
theorem rosterFor_names_nodup (cs : List Candidate)
    (h : (cs.map (fun c => c.name)).Nodup) :
    ∀ p, ((rosterFor cs p).map (fun c => c.name)).Nodup := by
  intro p
  exact h.sublist ((List.filter_sublist cs).map (fun c => c.name))

/-- For every Firestore store whose roster has distinct candidate ids
and per-position distinct names (the shape `init-candidates.js`
seeds), `part_003`'s `/api/public/votes` returns, for every position
and candidate, a count equal to exactly the number of Ballots with
validity `true` for that (position, candidate) pair, with each
position's list ordered descending by count and ties broken by
candidate roster order (stable sort).  First conjunct: every roster
position has an entry.  Second: each entry's list is sorted descending
by count; its filter at any count `k` equals the roster-ordered count
list's filter at `k` (this pins both the per-candidate counts and the
stable tie order); and each roster candidate appears with its exact
valid-ballot count. -/
theorem publicVotesV3_tally_correct (s : FState)
    (hids : (s.candidates.map (fun c => c.id)).Nodup)
    (hnames : ∀ p, ((rosterFor s.candidates p).map (fun c => c.name)).Nodup) :
    (∀ c ∈ s.candidates, ∃ l, (c.pos, l) ∈ publicVotesV3 s) ∧
    (∀ pos l, (pos, l) ∈ publicVotesV3 s →
      l.Pairwise (fun a b => b.2 ≤ a.2) ∧
      (∀ k, l.filter (fun x => x.2 == k) =
        ((rosterFor s.candidates pos).map
          (fun c => (c.name, countMatch s.votes c))).filter (fun x => x.2 == k)) ∧
      (∀ c ∈ rosterFor s.candidates pos,
        (c.name, countMatch s.votes c) ∈ l)) := by
  rw [publicVotesV3_eq s hids hnames]
  constructor
  · intro c hc
    refine ⟨_, List.mem_map_of_mem _ ?_⟩
    exact (mem_positionsOf s.candidates c.pos).mpr ⟨c, hc, rfl⟩
  · intro pos l hmem
    obtain ⟨pos', hpos', heq⟩ := List.mem_map.mp hmem
    have hp : pos' = pos := congrArg Prod.fst heq
    subst hp
    have hl : l = sortDesc ((rosterFor s.candidates pos').map
        (fun c => (c.name, countMatch s.votes c))) :=
      (congrArg Prod.snd heq).symm
    refine ⟨?_, ?_, ?_⟩
    · rw [hl]
      exact sortDesc_sorted _
    · intro k
      rw [hl, sortDesc_filter]
    · intro c hcro
      rw [hl]
      have hin : (c.name, countMatch s.votes c) ∈
          ((rosterFor s.candidates pos').map
            (fun c => (c.name, countMatch s.votes c))).filter
              (fun x => x.2 == countMatch s.votes c) := by
        rw [List.mem_filter]
        exact ⟨List.mem_map_of_mem _ hcro, by simp⟩
      rw [← sortDesc_filter _ (countMatch s.votes c)] at hin
      exact List.mem_of_mem_filter hin

/-- Valid and invalid demo ballots: two for Bob, one for Alice, one
invalidated. -/
def votesDemo : List FVote :=
  [⟨"c2", "u1", "e1", "President", true⟩,
   ⟨"c2", "u2", "e2", "President", true⟩,
   ⟨"c1", "u3", "e3", "President", true⟩,
   ⟨"c1", "u4", "e4", "President", false⟩]

/-! ## Claim C4: the SQLite tally's counts and order -/

theorem mem_insertGroup (n m : String) (l : List String) :
    m ∈ insertGroup n l ↔ m = n ∨ m ∈ l := by
  induction l with
  | nil => simp [insertGroup]
  | cons y t ih =>
      unfold insertGroup
      by_cases h1 : (n == y) = true
      · rw [if_pos h1]
        have : n = y := by simpa using h1
        subst this
        simp only [List.mem_cons]
        tauto
      · rw [if_neg h1]
        by_cases h2 : strLtB n y = true
        · rw [if_pos h2]
          simp [List.mem_cons]
        · rw [if_neg h2]
          simp only [List.mem_cons, ih]
          tauto

theorem foldl_insertGroup_mem (l : List String) (m : String) :
    ∀ acc, m ∈ l.foldl (fun acc n => insertGroup n acc) acc ↔ m ∈ acc ∨ m ∈ l := by
  induction l with
  | nil => intro acc; simp
  | cons n t ih =>
      intro acc
      rw [List.foldl_cons, ih (insertGroup n acc), mem_insertGroup]
      simp only [List.mem_cons]
      tauto

theorem mem_groupKeys (l : List String) (m : String) :
    m ∈ groupKeys l ↔ m ∈ l := by
  unfold groupKeys
  rw [foldl_insertGroup_mem]
  simp

/-- With distinct names, filtering the roster at one name keeps exactly
that candidate. -/
theorem filter_name_single (l : List Candidate) (c : Candidate)
    (hn : (l.map (fun x => x.name)).Nodup) (hc : c ∈ l) :
    l.filter (fun x => x.name == c.name) = [c] := by
  induction l with
  | nil => simp at hc
  | cons a t ih =>
      simp only [List.map_cons, List.nodup_cons] at hn
      rcases List.mem_cons.mp hc with rfl | hct
      · have ht : t.filter (fun x => x.name == c.name) = [] := by
          rw [List.filter_eq_nil_iff]
          intro x hx hxc
          exact hn.1 ((by simpa using hxc : x.name = c.name) ▸
            List.mem_map_of_mem (fun x => x.name) hx)
        rw [List.filter_cons]
        simp [ht]
      · have hane : (a.name == c.name) = false := by
          simp only [beq_eq_false_iff_ne, ne_eq]
          intro he
          exact hn.1 (he ▸ List.mem_map_of_mem (fun x => x.name) hct)
        rw [List.filter_cons, hane]
        simp only [Bool.false_eq_true, if_false]
        exact ih hn.2 hct

/-- With per-position distinct names, a group's `COUNT(v.id)` is its
candidate's valid-ballot count. -/
theorem groupCount_eq (s : SState) (pos : String) (c : Candidate)
    (hnames : ((rosterFor s.candidates pos).map (fun x => x.name)).Nodup)
    (hc : c ∈ rosterFor s.candidates pos) :
    groupCount s pos c.name = countMatchS s.votes c := by
  unfold groupCount
  rw [filter_name_single (rosterFor s.candidates pos) c hnames hc]
  simp only [List.foldl_cons, List.foldl_nil, Nat.zero_add]
  unfold countMatchS
  congr 1
  refine List.filter_congr ?_
  intro v _
  cases hv : v.isValid <;> simp [hv, BEq.comm]

/-- The SQLite tally's counts: every roster candidate's row carries
exactly its valid-ballot count. -/
theorem publicVotesSqlite_counts (s : SState)
    (hnames : ∀ p, ((rosterFor s.candidates p).map (fun c => c.name)).Nodup) :
    ∀ pos l, (pos, l) ∈ publicVotesSqlite s →
      ∀ c ∈ rosterFor s.candidates pos, (c.name, countMatchS s.votes c) ∈ l := by
  intro pos l hmem c hc
  obtain ⟨pos', hpos', heq⟩ := List.mem_map.mp hmem
  have hp : pos' = pos := congrArg Prod.fst heq
  subst hp
  have hl : l =
      (groupKeys ((rosterFor s.candidates pos').map (fun c => c.name))).map
        (fun n => (n, groupCount s pos' n)) :=
    (congrArg Prod.snd heq).symm
  rw [hl, ← groupCount_eq s pos' c (hnames pos') hc]
  exact List.mem_map_of_mem _ ((mem_groupKeys _ _).mpr
    (List.mem_map_of_mem (fun c => c.name) hc))

/-- Demo `Votes` rows for the SQLite store: two valid ballots for Bob,
one for Alice. -/
def svotesDemo : List SVote :=
  [⟨"u1", "e1", "c2", "Bob B", "President", 1, true⟩,
   ⟨"u2", "e2", "c2", "Bob B", "President", 2, true⟩,
   ⟨"u3", "e3", "c1", "Alice A", "President", 3, true⟩]

/-- **C4, counterexample.** The ordering clause fails for the cited
SQLite `/api/public/votes` (`server.js` lines 244–265): its query has
no `ORDER BY`, so at a concrete reachable store — Alice with one valid
ballot, Bob with two — the President list comes out in group-key order
`[("Alice A", 1), ("Bob B", 2)]`, which is not ordered descending by
count. -/
theorem claim_c4_counterexample :
    ("President", [("Alice A", 1), ("Bob B", 2)]) ∈
      publicVotesSqlite ⟨[], rosterDemo, svotesDemo⟩ ∧
    ¬ ([("Alice A", 1), ("Bob B", 2)] : List (String × Nat)).Pairwise
        (fun a b => b.2 ≤ a.2) := by
  decide

/-- **C4, amended.** For every store whose roster has distinct
candidate ids and per-position distinct names (the shape
`init-candidates.js` seeds), `GetTally` returns, for every position
and candidate, a count equal to exactly the number of Ballots with
validity `true` for that (position, candidate) pair — in both cited
variants.  The ordering clause holds only in the `part_003` variant,
whose lists are sorted descending by count with ties in roster order
(stable sort); the SQLite variant's query has no `ORDER BY` and emits
its rows in group-key (name) order, not by count.  First conjunct: the
full `part_003` characterization (entries for every roster position;
sorted descending; the filter at each count pinning counts and stable
tie order; each candidate's exact count present).  Second conjunct:
the SQLite counts. -/
theorem claim_c4_amended_tally_correct :
    (∀ s : FState,
      (s.candidates.map (fun c => c.id)).Nodup →
      (∀ p, ((rosterFor s.candidates p).map (fun c => c.name)).Nodup) →
      (∀ c ∈ s.candidates, ∃ l, (c.pos, l) ∈ publicVotesV3 s) ∧
      (∀ pos l, (pos, l) ∈ publicVotesV3 s →
        l.Pairwise (fun a b => b.2 ≤ a.2) ∧
        (∀ k, l.filter (fun x => x.2 == k) =
          ((rosterFor s.candidates pos).map
            (fun c => (c.name, countMatch s.votes c))).filter (fun x => x.2 == k)) ∧
        (∀ c ∈ rosterFor s.candidates pos,
          (c.name, countMatch s.votes c) ∈ l))) ∧
    (∀ s : SState,
      (∀ p, ((rosterFor s.candidates p).map (fun c => c.name)).Nodup) →
      ∀ pos l, (pos, l) ∈ publicVotesSqlite s →
        ∀ c ∈ rosterFor s.candidates pos,
          (c.name, countMatchS s.votes c) ∈ l) :=
  ⟨publicVotesV3_tally_correct, publicVotesSqlite_counts⟩

/-- Witness for the amended C4 at concrete stores: `part_003`'s
President list is the stable descending count list over the valid
ballots, and the SQLite rows carry the same exact counts. -/
theorem claim_c4_amended_witness :
    ([("Bob B", 2), ("Alice A", 1)] : List (String × Nat)).Pairwise
      (fun a b => b.2 ≤ a.2) ∧
    (∀ c ∈ rosterFor rosterDemo "President",
      (c.name, countMatch votesDemo c) ∈
        ([("Bob B", 2), ("Alice A", 1)] : List (String × Nat))) ∧
    (∀ c ∈ rosterFor rosterDemo "President",
      (c.name, countMatchS svotesDemo c) ∈
        ([("Alice A", 1), ("Bob B", 2)] : List (String × Nat))) :=
  ⟨((claim_c4_amended_tally_correct.1 ⟨[], rosterDemo, votesDemo, []⟩ (by decide)
      (rosterFor_names_nodup rosterDemo (by decide))).2
      "President" [("Bob B", 2), ("Alice A", 1)] (by decide)).1,
   ((claim_c4_amended_tally_correct.1 ⟨[], rosterDemo, votesDemo, []⟩ (by decide)
      (rosterFor_names_nodup rosterDemo (by decide))).2
      "President" [("Bob B", 2), ("Alice A", 1)] (by decide)).2.2,
   claim_c4_amended_tally_correct.2 ⟨[], rosterDemo, svotesDemo⟩
      (rosterFor_names_nodup rosterDemo (by decide))
      "President" [("Alice A", 1), ("Bob B", 2)] (by decide)⟩

end Voting
